import Mathlib

/-!
Verification of the SceneCraft editor's wire-format decoder and scene
synchronizer against its natural-language specification.

The embedding follows src/App.tsx (ProtoReader, decodeStructure3D,
decodeCameraIntrinsics, processResponse) and
src/components/ThreeDViewer.tsx (asset reconciliation, load completion and
active-selection effects).  JavaScript numeric semantics are modelled
exactly where they matter: the bitwise operators used by readVarint and
readTag act on 32-bit two's-complement integers, buffers are lists of
byte values with out-of-range reads yielding the masked-to-zero behaviour
of undefined, and Uint8Array.subarray uses the JS index normalization /
clamping rules.  IEEE-754 float32 values produced by readFloat are
represented by their bit patterns: the decoders never perform arithmetic
on them, so the representation is data-flow exact.
-/

namespace SceneCraft

/-- Decode errors thrown by the ProtoReader helper class. -/
inductive Err where
  | bufferUnderflow
  | unknownWireType (w : Nat)
  | rangeError
  deriving DecidableEq

/-- Decidable equality for Except results, used to evaluate the decoders
on concrete buffers. -/
instance {e a : Type} [DecidableEq e] [DecidableEq a] : DecidableEq (Except e a)
  | .error x, .error y =>
    if h : x = y then .isTrue (by rw [h]) else .isFalse (by intro hc; injection hc; contradiction)
  | .error _, .ok _ => .isFalse (by intro hc; exact Except.noConfusion hc)
  | .ok _, .error _ => .isFalse (by intro hc; exact Except.noConfusion hc)
  | .ok x, .ok y =>
    if h : x = y then .isTrue (by rw [h]) else .isFalse (by intro hc; injection hc; contradiction)

/-- JS ToUint32 of an integral value: reduce modulo 2^32. -/
def toUint32 (n : Int) : Nat := (n % (2 ^ 32 : Int)).toNat

/-- JS ToInt32 of an integral value: two's-complement signed 32-bit view. -/
def toInt32 (n : Int) : Int :=
  if n % (2 ^ 32 : Int) < 2 ^ 31 then n % (2 ^ 32 : Int) else n % (2 ^ 32 : Int) - 2 ^ 32

/-- The JS left-shift operator: both operands pass through ToInt32 and the
shift count is taken modulo 32. -/
def jsShl (a s : Int) : Int := toInt32 (toInt32 a * 2 ^ (toUint32 s % 32))

/-- The JS bitwise-or operator on 32-bit two's-complement values. -/
def jsOr (a b : Int) : Int := toInt32 (((toUint32 a ||| toUint32 b : Nat) : Int))

/-- Reading this.bytes at cursor position i.  A JS out-of-range read of a
Uint8Array yields undefined, which the only two uses inside readVarint
(masking with 0x7f and testing 0x80) turn into 0 via ToInt32. -/
def jsByte (bytes : List Nat) (i : Int) : Nat :=
  if 0 ≤ i ∧ i < (bytes.length : Int) then bytes.getD i.toNat 0 else 0

/-- One run of the do-while loop of ProtoReader.readVarint, accumulating
result and shift and advancing the cursor by one byte per iteration.  Fuel
bounds the number of iterations; the loop either exits on a byte with the
high bit clear, or throws once the cursor reaches the end of the buffer,
so starting from cursor i it runs at most (length - i) + 1 times when
0 <= i and exactly once otherwise; the fuel length + 1 supplied by
readVarint is therefore never exhausted. -/
def readVarintAux (bytes : List Nat) : Nat → Int → Int → Int → Except Err (Int × Int)
  | 0, _, _, _ => .error .bufferUnderflow
  | fuel + 1, i, result, shift =>
    if (bytes.length : Int) ≤ i then .error .bufferUnderflow
    else
      let byte := jsByte bytes i
      let r := jsOr result (jsShl ((byte &&& 127 : Nat) : Int) shift)
      if byte &&& 128 ≠ 0 then readVarintAux bytes fuel (i + 1) r (shift + 7)
      else .ok (r, i + 1)

/-- ProtoReader.readVarint: decoded value (a 32-bit signed JS integer) and
the cursor just past the encoding. -/
def readVarint (bytes : List Nat) (i : Int) : Except Err (Int × Int) :=
  readVarintAux bytes (bytes.length + 1) i 0 0

/-- ProtoReader.readTag: fieldNumber is the signed shift tag >> 3 (floor
division by 8) and wireType is tag & 7 (always in 0..7). -/
def readTag (bytes : List Nat) (i : Int) : Except Err (Int × Nat × Int) :=
  match readVarint bytes i with
  | .error e => .error e
  | .ok (tag, j) => .ok (Int.fdiv (toInt32 tag) 8, toUint32 tag % 8, j)

/-- JS relative-index normalization used by Uint8Array.subarray: a
negative index counts from the end of the array, then the result is
clamped to [0, length]. -/
def jsIndex (bytes : List Nat) (i : Int) : Int :=
  if i < 0 then max ((bytes.length : Int) + i) 0 else min i (bytes.length : Int)

/-- Uint8Array.subarray with the JS normalization rules; an empty view
results when the normalized start is not below the normalized end. -/
def jsSubarray (bytes : List Nat) (s e : Int) : List Nat :=
  (bytes.take (jsIndex bytes e).toNat).drop (jsIndex bytes s).toNat

/-- ProtoReader.readBytes: reads a varint length, slices the next length
bytes with no bound check, and advances the cursor by length. -/
def readBytes (bytes : List Nat) (i : Int) : Except Err (List Nat × Int) :=
  match readVarint bytes i with
  | .error e => .error e
  | .ok (len, j) => .ok (jsSubarray bytes j (j + len), j + len)

/-- A JS number as used by the decoders: either an integral value (varint
fields and the hard-coded defaults) or an IEEE-754 float32 represented by
its 32-bit pattern as read by DataView.getFloat32.  The decoders never
compute with decoded floats, so the bit-pattern view is data-flow exact. -/
inductive Val where
  | int (n : Int)
  | f32 (bits : Nat)
  deriving DecidableEq

/-- Little-endian 32-bit word assembled from four consecutive bytes. -/
def leWord (b0 b1 b2 b3 : Nat) : Nat := b0 + 256 * b1 + 65536 * b2 + 16777216 * b3

/-- ProtoReader.readFloat: explicit bound check against the upper end only;
DataView.getFloat32 itself raises a RangeError on a negative offset. -/
def readFloat (bytes : List Nat) (i : Int) : Except Err (Val × Int) :=
  if (bytes.length : Int) < i + 4 then .error .bufferUnderflow
  else if i < 0 then .error .rangeError
  else
    .ok (.f32 (leWord (bytes.getD i.toNat 0) (bytes.getD (i.toNat + 1) 0)
      (bytes.getD (i.toNat + 2) 0) (bytes.getD (i.toNat + 3) 0)), i + 4)

/-- ProtoReader.skipField: advance past one field value by wire type. -/
def skipField (bytes : List Nat) (w : Nat) (i : Int) : Except Err Int :=
  match w with
  | 0 =>
    match readVarint bytes i with
    | .error e => .error e
    | .ok (_, j) => .ok j
  | 1 => .ok (i + 8)
  | 2 =>
    match readVarint bytes i with
    | .error e => .error e
    | .ok (len, j) => .ok (j + len)
  | 5 => .ok (i + 4)
  | w => .error (.unknownWireType w)

/-- Result record of decodeStructure3D.  The label field holds the raw
bytes handed to TextDecoder; text decoding is presentation only. -/
structure Structure3D where
  fileType : Int
  data : List Nat
  label : List Nat
  deriving DecidableEq

/-- Initial accumulator of decodeStructure3D. -/
def s3Init : Structure3D := { fileType := 0, data := [], label := [] }

/-- The CameraIntrinsics record. -/
structure CameraIntrinsics where
  image_width : Val
  image_height : Val
  cx : Val
  cy : Val
  fx : Val
  fy : Val
  deriving DecidableEq

/-- The process-wide defaultIntrinsics constant of src/App.tsx. -/
def defaultIntrinsics : CameraIntrinsics :=
  { image_width := .int 800, image_height := .int 600, cx := .int 400,
    cy := .int 300, fx := .int 500, fy := .int 500 }

/-- The switch body of decodeStructure3D, dispatching one already-read tag:
a registered field number with the matching wire type reads its value, any
other combination is skipped. -/
def s3Body (bytes : List Nat) (acc : Structure3D) (fn : Int) (w : Nat) (i : Int) :
    Except Err (Structure3D × Int) :=
  if fn = 1 then
    if w = 0 then
      match readVarint bytes i with
      | .error e => .error e
      | .ok (v, j) => .ok ({ acc with fileType := v }, j)
    else (skipField bytes w i).map fun j => (acc, j)
  else if fn = 2 then
    if w = 2 then
      match readBytes bytes i with
      | .error e => .error e
      | .ok (d, j) => .ok ({ acc with data := d }, j)
    else (skipField bytes w i).map fun j => (acc, j)
  else if fn = 3 then
    if w = 2 then
      match readBytes bytes i with
      | .error e => .error e
      | .ok (d, j) => .ok ({ acc with label := d }, j)
    else (skipField bytes w i).map fun j => (acc, j)
  else (skipField bytes w i).map fun j => (acc, j)

/-- The switch body of decodeCameraIntrinsics. -/
def intrBody (bytes : List Nat) (acc : CameraIntrinsics) (fn : Int) (w : Nat) (i : Int) :
    Except Err (CameraIntrinsics × Int) :=
  if fn = 1 then
    if w = 0 then
      match readVarint bytes i with
      | .error e => .error e
      | .ok (v, j) => .ok ({ acc with image_width := .int v }, j)
    else (skipField bytes w i).map fun j => (acc, j)
  else if fn = 2 then
    if w = 0 then
      match readVarint bytes i with
      | .error e => .error e
      | .ok (v, j) => .ok ({ acc with image_height := .int v }, j)
    else (skipField bytes w i).map fun j => (acc, j)
  else if fn = 3 then
    if w = 5 then
      match readFloat bytes i with
      | .error e => .error e
      | .ok (v, j) => .ok ({ acc with cx := v }, j)
    else (skipField bytes w i).map fun j => (acc, j)
  else if fn = 4 then
    if w = 5 then
      match readFloat bytes i with
      | .error e => .error e
      | .ok (v, j) => .ok ({ acc with cy := v }, j)
    else (skipField bytes w i).map fun j => (acc, j)
  else if fn = 5 then
    if w = 5 then
      match readFloat bytes i with
      | .error e => .error e
      | .ok (v, j) => .ok ({ acc with fx := v }, j)
    else (skipField bytes w i).map fun j => (acc, j)
  else if fn = 6 then
    if w = 5 then
      match readFloat bytes i with
      | .error e => .error e
      | .ok (v, j) => .ok ({ acc with fy := v }, j)
    else (skipField bytes w i).map fun j => (acc, j)
  else (skipField bytes w i).map fun j => (acc, j)

/-- The while-loop shared by both message decoders: while the cursor has
not reached the end of the buffer, read one tag and dispatch it through
the given switch body.  Fuel counts loop iterations; none means the loop
ran longer than the given fuel allows (the source loop is genuinely
partial: a length-delimited field whose length decodes to a negative
32-bit value moves the cursor backwards, see the analysis of claim C10).  -/
def decodeLoop (bytes : List Nat) (body : α → Int → Nat → Int → Except Err (α × Int)) :
    Nat → α → Int → Option (Except Err (α × Int))
  | 0, _, _ => none
  | fuel + 1, acc, i =>
    if (bytes.length : Int) ≤ i then some (.ok (acc, i))
    else
      match readTag bytes i with
      | .error e => some (.error e)
      | .ok (fn, w, j) =>
        match body acc fn w j with
        | .error e => some (.error e)
        | .ok (acc2, k) => decodeLoop bytes body fuel acc2 k

/-- decodeStructure3D of src/App.tsx, indexed by loop fuel. -/
def decodeStructure3D (fuel : Nat) (bytes : List Nat) :
    Option (Except Err (Structure3D × Int)) :=
  decodeLoop bytes (s3Body bytes) fuel s3Init 0

/-- decodeCameraIntrinsics of src/App.tsx, indexed by loop fuel.  The
accumulator starts from a copy of defaultIntrinsics on every call. -/
def decodeCameraIntrinsics (fuel : Nat) (bytes : List Nat) :
    Option (Except Err (CameraIntrinsics × Int)) :=
  decodeLoop bytes (intrBody bytes) fuel defaultIntrinsics 0

/-- The decode loop with every field handler removed: every field is
processed by skipField. -/
def skipDecode (fuel : Nat) (bytes : List Nat) : Option (Except Err (Unit × Int)) :=
  decodeLoop bytes (fun _ _ w i => (skipField bytes w i).map fun j => ((), j)) fuel () 0

/-- Standard base-128 little-endian varint encoding: seven data bits per
byte, high bit set on every byte except the last. -/
def varintEncode (n : Nat) : List Nat :=
  if h : n < 128 then [n]
  else (n % 128 + 128) :: varintEncode (n / 128)
  termination_by n
  decreasing_by exact Nat.div_lt_self (by omega) (by omega)

/-- One wire-format field, as used to state well-formedness of messages:
a varint field, a 64-bit field, a length-delimited field or a 32-bit
field, each with its field number. -/
inductive FieldV where
  | vint (fn : Nat) (v : Nat)
  | f64 (fn : Nat) (payload : List Nat)
  | ldelim (fn : Nat) (payload : List Nat)
  | f32 (fn : Nat) (payload : List Nat)
  deriving DecidableEq

/-- Field number of a wire-format field. -/
def FieldV.fieldNum : FieldV → Nat
  | .vint fn _ => fn
  | .f64 fn _ => fn
  | .ldelim fn _ => fn
  | .f32 fn _ => fn

/-- Wire type of a wire-format field. -/
def FieldV.wire : FieldV → Nat
  | .vint _ _ => 0
  | .f64 _ _ => 1
  | .ldelim _ _ => 2
  | .f32 _ _ => 5

/-- Tag value of a field: field number shifted left three bits plus wire
type. -/
def FieldV.tag (f : FieldV) : Nat := f.fieldNum * 8 + f.wire

/-- Value bytes of one field (the length prefix included for
length-delimited fields). -/
def fieldBody : FieldV → List Nat
  | .vint _ v => varintEncode v
  | .f64 _ p => p
  | .ldelim _ p => varintEncode p.length ++ p
  | .f32 _ p => p

/-- Byte encoding of one field: varint-encoded tag followed by the value
bytes. -/
def encodeField (f : FieldV) : List Nat := varintEncode f.tag ++ fieldBody f

/-- Byte encoding of a message given as a field list. -/
def encodeMsg (fs : List FieldV) : List Nat := (fs.map encodeField).flatten

/-- Well-formedness of a single field: the field number is small enough
for its tag to stay in varint range, varint values stay below 2^31 (so
the 32-bit accumulation of readVarint recovers them exactly), fixed-width
payloads have their exact width and length-delimited payloads declare
their exact length, also below 2^31. -/
def WFfield : FieldV → Prop
  | .vint fn v => fn < 2 ^ 28 ∧ v < 2 ^ 31
  | .f64 fn p => fn < 2 ^ 28 ∧ p.length = 8
  | .ldelim fn p => fn < 2 ^ 28 ∧ p.length < 2 ^ 31
  | .f32 fn p => fn < 2 ^ 28 ∧ p.length = 4

instance (f : FieldV) : Decidable (WFfield f) := by
  cases f <;> simp only [WFfield] <;> infer_instance

/-- The value fold of decodeStructure3D over one well-formed field: the
accumulator update its switch performs on that field. -/
def s3Fold (acc : Structure3D) : FieldV → Structure3D
  | .vint fn v => if fn = 1 then { acc with fileType := (v : Int) } else acc
  | .ldelim fn p =>
    if fn = 2 then { acc with data := p }
    else if fn = 3 then { acc with label := p }
    else acc
  | _ => acc

/-- The 32-bit word held by a four-byte fixed32 payload. -/
def f32Word (p : List Nat) : Nat := leWord (p.getD 0 0) (p.getD 1 0) (p.getD 2 0) (p.getD 3 0)

/-- The value fold of decodeCameraIntrinsics over one well-formed field. -/
def intrFold (acc : CameraIntrinsics) : FieldV → CameraIntrinsics
  | .vint fn v =>
    if fn = 1 then { acc with image_width := .int (v : Int) }
    else if fn = 2 then { acc with image_height := .int (v : Int) }
    else acc
  | .f32 fn p =>
    if fn = 3 then { acc with cx := .f32 (f32Word p) }
    else if fn = 4 then { acc with cy := .f32 (f32Word p) }
    else if fn = 5 then { acc with fx := .f32 (f32Word p) }
    else if fn = 6 then { acc with fy := .f32 (f32Word p) }
    else acc
  | _ => acc

/-- A field is invisible to decodeStructure3D: its field number is not
registered, or its wire type mismatches the registered handler. -/
def s3Skips (f : FieldV) : Prop :=
  (f.fieldNum ≠ 1 ∧ f.fieldNum ≠ 2 ∧ f.fieldNum ≠ 3) ∨
  (f.fieldNum = 1 ∧ f.wire ≠ 0) ∨
  ((f.fieldNum = 2 ∨ f.fieldNum = 3) ∧ f.wire ≠ 2)

/-- A field is invisible to decodeCameraIntrinsics. -/
def intrSkips (f : FieldV) : Prop :=
  (f.fieldNum ∉ ([1, 2, 3, 4, 5, 6] : List Nat)) ∨
  ((f.fieldNum = 1 ∨ f.fieldNum = 2) ∧ f.wire ≠ 0) ∨
  (f.fieldNum ∈ ([3, 4, 5, 6] : List Nat) ∧ f.wire ≠ 5)

/-- Supported asset file types of ThreeDAsset. -/
inductive FT where
  | ply
  | glb
  deriving DecidableEq

/-- Origin of an asset. -/
inductive Origin where
  | model
  | upload
  deriving DecidableEq

/-- A ThreeDAsset as created by processResponse.  Identities are modelled
as naturals drawn from a fresh-identity counter; crypto.randomUUID of the
source corresponds to the counter plus the freshness hypothesis stated
where a claim needs uniqueness. -/
structure Asset where
  id : Nat
  data : List Nat
  fileType : FT
  label : List Nat
  origin : Origin
  deriving DecidableEq

/-- Console diagnostics emitted by processResponse: the splat warning, the
unknown file type warning, the per-part catch-all error log, and the
no-supported-asset warning emitted after all parts are processed. -/
inductive Diag where
  | splatUnsupported
  | unknownFileType (k : Int)
  | partError
  | noAssetWarn
  deriving DecidableEq

/-- Result of JSON.parse on an application/json part: the flag records
whether both the image_width and fx keys are present in the record. -/
structure JsonVal where
  hasKeys : Bool
  value : CameraIntrinsics
  deriving DecidableEq

/-- One response part after transport decoding.  Base64 is a bijective
transport encoding and is elided: binary parts carry their raw bytes (an
invalid base64 string throws in the same per-part try block as a decode
error and is subsumed by the pJson none / decode-error cases).  The
constructor pOther covers image parts and any other passthrough content
type; pJson none models a JSON payload on which JSON.parse throws. -/
inductive Part where
  | ptext
  | pS3 (bytes : List Nat)
  | pIntr (bytes : List Nat)
  | pPly (bytes : List Nat)
  | pJson (v : Option JsonVal)
  | pOther
  deriving DecidableEq

/-- A part consisting of text with no inline data (the predicate of the
parts.every check at the end of processResponse). -/
def Part.isTextOnly : Part → Bool
  | .ptext => true
  | _ => false

/-- The portion of App state that processResponse updates, plus the local
newAssetCreated flag (reset on entry) and the fresh-identity counter. -/
structure CoreState where
  assets : List Asset
  activeAssetId : Option Nat
  intrinsics : CameraIntrinsics
  nextId : Nat
  created : Bool
  deriving DecidableEq

/-- The UTF-8 bytes of the string Generated Model. -/
def generatedLabel : List Nat :=
  [71, 101, 110, 101, 114, 97, 116, 101, 100, 32, 77, 111, 100, 101, 108]

/-- Append one new asset with a freshly generated identity, select it and
raise the newAssetCreated flag (shared tail of the Structure3D and raw
point-cloud branches of processResponse). -/
def createAsset (core : CoreState) (data : List Nat) (ft : FT) (label : List Nat) :
    CoreState :=
  { core with
    assets := core.assets ++
      [{ id := core.nextId, data := data, fileType := ft, label := label,
         origin := .model }],
    activeAssetId := some core.nextId,
    nextId := core.nextId + 1,
    created := true }

/-- Effect of one response part on the core state, with the diagnostics it
emits (console output is an append-only log, returned separately).  The
fuel indexes the decoder loops as in decodeStructure3D; the none branches
are unreachable for parts whose decode halts within the given fuel, which
every claim hypothesis guarantees. -/
def partEffect (fuel : Nat) (core : CoreState) : Part → CoreState × List Diag
  | .ptext => (core, [])
  | .pOther => (core, [])
  | .pS3 bytes =>
    match decodeStructure3D fuel bytes with
    | some (.ok (r, _)) =>
      if r.fileType = 1 then
        if 0 < r.data.length then
          (createAsset core r.data .ply
            (if r.label = [] then generatedLabel else r.label), [])
        else (core, [])
      else if r.fileType = 3 then
        if 0 < r.data.length then
          (createAsset core r.data .glb
            (if r.label = [] then generatedLabel else r.label), [])
        else (core, [])
      else if r.fileType = 2 then (core, [.splatUnsupported])
      else (core, [.unknownFileType r.fileType])
    | some (.error _) => (core, [.partError])
    | none => (core, [])
  | .pIntr bytes =>
    match decodeCameraIntrinsics fuel bytes with
    | some (.ok (v, _)) => ({ core with intrinsics := v }, [])
    | some (.error _) => (core, [.partError])
    | none => (core, [])
  | .pPly bytes => (createAsset core bytes .ply generatedLabel, [])
  | .pJson none => (core, [.partError])
  | .pJson (some j) =>
    (if j.hasKeys then { core with intrinsics := j.value } else core, [])

/-- App state: core plus the console log. -/
structure AppState where
  core : CoreState
  diags : List Diag
  deriving DecidableEq

/-- Process one part inside its try/catch: the state update happens, or on
a thrown decode error only a diagnostic is appended. -/
def processPart (fuel : Nat) (st : AppState) (p : Part) : AppState :=
  { core := (partEffect fuel st.core p).1,
    diags := st.diags ++ (partEffect fuel st.core p).2 }

/-- processResponse of src/App.tsx: reset the newAssetCreated flag,
process every part in order inside per-part try/catch, then emit the
no-supported-asset warning when no asset was created, some part was not
plain text and the part list is non-empty. -/
def processResponse (fuel : Nat) (parts : List Part) (st : AppState) : AppState :=
  let st2 := parts.foldl (processPart fuel)
    { st with core := { st.core with created := false } }
  if st2.core.created = false ∧ parts.all Part.isTextOnly = false ∧ parts ≠ [] then
    { st2 with diags := st2.diags ++ [.noAssetWarn] }
  else st2

/-- State of the asset reconciliation in ThreeDViewer: the identity keys
of the modelsRef map in insertion order, the in-flight loads started by
the reconciliation effect, and the identity the TransformControls handle
is attached to. -/
structure SceneState where
  models : List Nat
  pending : List Nat
  attached : Option Nat
  deriving DecidableEq

/-- The asset reconciliation effect of ThreeDViewer.tsx: every tracked
identity absent from the asset list is removed, detaching the handle
first when it is attached to that model; then a load is started for every
asset identity not currently tracked (no deduplication against loads
already in flight, as in the source). -/
def reconcile (assetIds : List Nat) (st : SceneState) : SceneState :=
  let att : Option Nat :=
    match st.attached with
    | some a => if a ∈ st.models ∧ a ∉ assetIds then none else some a
    | none => none
  let models2 := st.models.filter (· ∈ assetIds)
  { models := models2,
    pending := st.pending ++ assetIds.filter (· ∉ models2),
    attached := att }

/-- The onLoad completion callback of the asset loader: registers the
loaded container under its asset identity unconditionally; the source
performs no check that the identity is still desired.  A completion
corresponds to one in-flight load. -/
def completeLoad (id : Nat) (st : SceneState) : SceneState :=
  if id ∈ st.pending then
    { st with
      models := if id ∈ st.models then st.models else st.models ++ [id],
      pending := st.pending.erase id }
  else st

/-- Events driving the scene synchronizer. -/
inductive SceneEv where
  | assetsChanged (assetIds : List Nat)
  | loadCompleted (id : Nat)
  deriving DecidableEq

/-- One event step of the scene synchronizer. -/
def sceneStep (st : SceneState) : SceneEv → SceneState
  | .assetsChanged ids => reconcile ids st
  | .loadCompleted id => completeLoad id st

/-- Run a sequence of scene events. -/
def sceneRun (evs : List SceneEv) (st : SceneState) : SceneState :=
  evs.foldl sceneStep st

/-- The empty scene. -/
def sceneInit : SceneState := { models := [], pending := [], attached := none }

/-- Primitive operations on the single TransformControls handle and the
bounding-box indicator, in the order the selection effect performs them. -/
inductive GizmoOp where
  | removeIndicator
  | detach
  | attach (id : Nat)
  | addIndicator (id : Nat)
  | publishTransform (id : Nat)
  deriving DecidableEq

/-- Observable handle and indicator state for the selection effect. -/
structure SelState where
  models : List Nat
  attached : Option Nat
  indicator : Option Nat
  deriving DecidableEq

/-- The operation sequence of the active-asset selection effect
(ThreeDViewer.tsx): unconditionally remove any bounding indicator and
detach the handle; then, when the new active identity is tracked, attach
to it, add a fresh indicator when its bounding box is non-empty, and
publish its current placement.  boxEmpty abstracts Box3.isEmpty of the
model's current world extent. -/
def selectionOps (boxEmpty : Nat → Bool) (st : SelState) (active : Option Nat) :
    List GizmoOp :=
  (if st.indicator.isSome then [GizmoOp.removeIndicator] else []) ++
  [GizmoOp.detach] ++
  (match active with
   | some id =>
     if id ∈ st.models then
       [GizmoOp.attach id] ++
       (if boxEmpty id then [] else [GizmoOp.addIndicator id]) ++
       [GizmoOp.publishTransform id]
     else []
   | none => [])

/-- Apply one gizmo operation to the observable state. -/
def applyOp (st : SelState) : GizmoOp → SelState
  | .removeIndicator => { st with indicator := none }
  | .detach => { st with attached := none }
  | .attach id => { st with attached := some id }
  | .addIndicator id => { st with indicator := some id }
  | .publishTransform _ => st

/-- Apply a gizmo operation sequence from left to right. -/
def applyOps (st : SelState) (ops : List GizmoOp) : SelState := ops.foldl applyOp st

/-- Whether an operation attaches the manipulation handle. -/
def isAttachOp : GizmoOp → Bool
  | .attach _ => true
  | _ => false

/-- A concrete selection state used to exercise the selection effect:
assets 3 and 5 tracked, the handle attached to 3 with its indicator. -/
def selTest : SelState := { models := [3, 5], attached := some 3, indicator := some 3 }

/-- A response part whose processing throws inside the per-part try block:
a Structure3D or CameraIntrinsics payload whose decode raises within the
given fuel, or a JSON payload on which JSON.parse throws. -/
def DecodeFails (fuel : Nat) : Part → Prop
  | .pS3 bytes => ∃ e, decodeStructure3D fuel bytes = some (.error e)
  | .pIntr bytes => ∃ e, decodeCameraIntrinsics fuel bytes = some (.error e)
  | .pJson v => v = none
  | _ => False

/-- The initial core state: no assets, no selection, default intrinsics,
fresh-identity counter at zero. -/
def coreInit0 : CoreState :=
  { assets := []
    activeAssetId := none
    intrinsics := defaultIntrinsics
    nextId := 0
    created := false }

/-- The initial App state: initial core and an empty console log. -/
def appInit0 : AppState := { core := coreInit0, diags := [] }

/-! ### Arithmetic facts about the 32-bit JS operators -/

lemma toUint32_coe (n : Nat) (h : n < 2 ^ 32) : toUint32 (n : Int) = n := by
  have e1 : ((2 : Int) ^ 32) = 4294967296 := by norm_num
  have h2 : n < 4294967296 := by
    calc n < 2 ^ 32 := h
    _ = 4294967296 := by norm_num
  unfold toUint32
  rw [e1]
  omega

lemma toInt32_coe (n : Nat) (h : n < 2 ^ 31) : toInt32 (n : Int) = n := by
  have e1 : ((2 : Int) ^ 32) = 4294967296 := by norm_num
  have e2 : ((2 : Int) ^ 31) = 2147483648 := by norm_num
  have h2 : n < 2147483648 := by
    calc n < 2 ^ 31 := h
    _ = 2147483648 := by norm_num
  unfold toInt32
  rw [e1, e2]
  split_ifs with hc
  · omega
  · omega

lemma jsShl_zero (s : Int) : jsShl 0 s = 0 := by
  have : toInt32 0 = 0 := by unfold toInt32; norm_num
  simp [jsShl, this]

lemma jsShl_coe (g s : Nat) (hs : s < 32) (h : g * 2 ^ s < 2 ^ 31) :
    jsShl (g : Int) (s : Int) = ((g * 2 ^ s : Nat) : Int) := by
  have hg : g < 2 ^ 31 := lt_of_le_of_lt (Nat.le_mul_of_pos_right g (Nat.pos_pow_of_pos s (by norm_num))) h
  have hsmall : s < 2 ^ 32 := by
    calc s < 32 := hs
    _ < 2 ^ 32 := by norm_num
  unfold jsShl
  rw [toUint32_coe s hsmall, Nat.mod_eq_of_lt hs, toInt32_coe g hg]
  have : ((g : Int)) * 2 ^ s = ((g * 2 ^ s : Nat) : Int) := by push_cast; ring
  rw [this, toInt32_coe _ h]

lemma jsShl_eq (g s : Nat) (h : g * 2 ^ s < 2 ^ 31) :
    jsShl (g : Int) (s : Int) = ((g * 2 ^ s : Nat) : Int) := by
  rcases Nat.eq_zero_or_pos g with hg | hg
  · subst hg; simpa using jsShl_zero s
  · have hs : s < 32 := by
      by_contra hs
      push_neg at hs
      have h1 : 2 ^ 32 ≤ 2 ^ s := Nat.pow_le_pow_right (by norm_num) hs
      have h2 : 2 ^ s ≤ g * 2 ^ s := Nat.le_mul_of_pos_left _ hg
      have : (2 : Nat) ^ 31 < 2 ^ 32 := by norm_num
      omega
    exact jsShl_coe g s hs h

lemma jsOr_disjoint (a g s : Nat) (ha : a < 2 ^ s) (h : a + g * 2 ^ s < 2 ^ 31) :
    jsOr (a : Int) ((g * 2 ^ s : Nat) : Int) = ((a + g * 2 ^ s : Nat) : Int) := by
  have h32 : (2 : Nat) ^ 31 < 2 ^ 32 := by norm_num
  have hor : a ||| g * 2 ^ s = a + g * 2 ^ s := by
    have h1 := Nat.mul_add_lt_is_or ha g
    rw [Nat.lor_comm, mul_comm g (2 ^ s), ← h1, Nat.add_comm]
  unfold jsOr
  rw [toUint32_coe a (by omega), toUint32_coe _ (by omega), hor, toInt32_coe _ (by omega)]

/-! ### List access helpers -/

lemma getD_append_len (l1 l2 : List Nat) (x d : Nat) :
    (l1 ++ x :: l2).getD l1.length d = x := by
  induction l1 with
  | nil => rfl
  | cons a t ih => simpa [List.getD] using ih

lemma getD_append_off (l1 l2 : List Nat) (k d : Nat) :
    (l1 ++ l2).getD (l1.length + k) d = l2.getD k d := by
  induction l1 with
  | nil => simp
  | cons a t ih =>
    have e : t.length + 1 + k = (t.length + k) + 1 := by omega
    simpa [List.getD, e] using ih

lemma jsSubarray_exact (l1 p l3 : List Nat) :
    jsSubarray (l1 ++ p ++ l3) (l1.length : Int) ((l1.length : Int) + (p.length : Int)) = p := by
  have hlen : ((l1 ++ p ++ l3).length : Int) = (l1.length : Int) + p.length + l3.length := by
    push_cast [List.length_append]
    ring
  have e1 : jsIndex (l1 ++ p ++ l3) ((l1.length : Int) + (p.length : Int)) =
      ((l1.length + p.length : Nat) : Int) := by
    unfold jsIndex
    rw [if_neg (by omega), hlen]
    push_cast
    omega
  have e2 : jsIndex (l1 ++ p ++ l3) (l1.length : Int) = (l1.length : Int) := by
    unfold jsIndex
    rw [if_neg (by omega), hlen]
    omega
  unfold jsSubarray
  rw [e1, e2, Int.toNat_natCast, Int.toNat_natCast]
  rw [show l1.length + p.length = (l1 ++ p).length by simp, List.take_left, List.drop_left]

/-! ### Behaviour of readVarint on encoded values -/

lemma readVarintAux_succ (bytes : List Nat) (fuel : Nat) (i r s : Int) :
    readVarintAux bytes (fuel + 1) i r s =
      if (bytes.length : Int) ≤ i then .error .bufferUnderflow
      else if jsByte bytes i &&& 128 ≠ 0 then
        readVarintAux bytes fuel (i + 1)
          (jsOr r (jsShl ((jsByte bytes i &&& 127 : Nat) : Int) s)) (s + 7)
      else .ok (jsOr r (jsShl ((jsByte bytes i &&& 127 : Nat) : Int) s), i + 1) := rfl

lemma varintEncode_ne_nil (n : Nat) : varintEncode n ≠ [] := by
  rw [varintEncode]
  split_ifs <;> simp

lemma varintEncode_pos (n : Nat) : 0 < (varintEncode n).length :=
  List.length_pos.mpr (varintEncode_ne_nil n)

lemma readVarintAux_encode (n : Nat) :
    ∀ (pre rest : List Nat) (acc shift fuel : Nat),
      acc < 2 ^ shift → acc + n * 2 ^ shift < 2 ^ 31 →
      (varintEncode n).length ≤ fuel →
      readVarintAux (pre ++ varintEncode n ++ rest) fuel (pre.length : Int)
          (acc : Int) (shift : Int) =
        .ok (((acc + n * 2 ^ shift : Nat) : Int),
          (pre.length : Int) + ((varintEncode n).length : Int)) := by
  induction n using Nat.strong_induction_on with
  | _ n ih =>
    intro pre rest acc shift fuel hacc hsum hfuel
    have hA : n * 2 ^ shift < 2 ^ 31 := by omega
    by_cases hn : n < 128
    · -- terminating byte
      have henc : varintEncode n = [n] := by rw [varintEncode]; exact dif_pos hn
      rw [henc] at hfuel ⊢
      obtain ⟨fuel, rfl⟩ : ∃ f, fuel = f + 1 := ⟨fuel - 1, by simp at hfuel; omega⟩
      have hb : ¬ (((pre ++ [n] ++ rest).length : Int) ≤ (pre.length : Int)) := by
        simp only [List.length_append, List.length_cons, List.length_nil]
        push_cast
        omega
      rw [readVarintAux_succ, if_neg hb]
      have hby : jsByte (pre ++ [n] ++ rest) (pre.length : Int) = n := by
        unfold jsByte
        rw [if_pos ⟨by positivity, by simp only [List.length_append, List.length_cons, List.length_nil]; push_cast; omega⟩,
          Int.toNat_natCast, List.append_assoc]
        exact getD_append_len pre rest n 0
      have h128 : (2 : Nat) ^ 7 = 128 := by norm_num
      have hm1 : n &&& 127 = n := by
        rw [show (127 : Nat) = 2 ^ 7 - 1 by norm_num]
        exact Nat.and_pow_two_sub_one_of_lt_two_pow (by omega)
      have hm2 : n &&& 128 = 0 := by
        rw [show (128 : Nat) = 2 ^ 7 by norm_num, Nat.and_two_pow,
          Nat.testBit_lt_two_pow (by omega)]
        simp
      rw [hby, hm1, hm2]
      rw [if_neg (by simp)]
      rw [jsShl_eq n shift hA, jsOr_disjoint acc n shift hacc hsum]
      simp
    · -- continuation byte, recurse on n / 128
      have henc : varintEncode n = (n % 128 + 128) :: varintEncode (n / 128) := by
        rw [varintEncode]
        exact dif_neg hn
      rw [henc] at hfuel ⊢
      obtain ⟨fuel, rfl⟩ : ∃ f, fuel = f + 1 := ⟨fuel - 1, by simp at hfuel; omega⟩
      have hb : ¬ ((((pre ++ (n % 128 + 128) :: varintEncode (n / 128) ++ rest)).length : Int) ≤
          (pre.length : Int)) := by
        simp only [List.length_append, List.length_cons, List.length_nil]
        push_cast
        omega
      rw [readVarintAux_succ, if_neg hb]
      have hby : jsByte (pre ++ (n % 128 + 128) :: varintEncode (n / 128) ++ rest)
          (pre.length : Int) = n % 128 + 128 := by
        unfold jsByte
        rw [if_pos ⟨by positivity, by simp only [List.length_append, List.length_cons, List.length_nil]; push_cast; omega⟩,
          Int.toNat_natCast, List.append_assoc]
        exact getD_append_len pre (varintEncode (n / 128) ++ rest) (n % 128 + 128) 0
      have h128 : (2 : Nat) ^ 7 = 128 := by norm_num
      have hm1 : (n % 128 + 128) &&& 127 = n % 128 := by
        rw [show (127 : Nat) = 2 ^ 7 - 1 by norm_num, Nat.and_pow_two_sub_one_eq_mod]
        omega
      have hm2 : (n % 128 + 128) &&& 128 ≠ 0 := by
        have ht : (n % 128 + 128).testBit 7 = true := by
          rw [Nat.testBit_to_div_mod]
          have hx : (n % 128 + 128) / 2 ^ 7 = 1 := by omega
          simp [hx]
        have hval := Nat.and_two_pow (n % 128 + 128) 7
        rw [ht] at hval
        norm_num at hval
        rw [hval]
        norm_num
      rw [hby, hm1]
      rw [if_pos hm2]
      have hle : n % 128 * 2 ^ shift ≤ n * 2 ^ shift :=
        Nat.mul_le_mul_right _ (Nat.mod_le n 128)
      rw [jsShl_eq (n % 128) shift (by omega),
        jsOr_disjoint acc (n % 128) shift hacc (by omega)]
      have e7 : (2 : Nat) ^ (shift + 7) = 2 ^ shift * 128 := by
        rw [pow_add]
        norm_num
      have key : acc + n % 128 * 2 ^ shift + n / 128 * 2 ^ (shift + 7) =
          acc + n * 2 ^ shift := by
        rw [e7]
        have hd : n % 128 + 128 * (n / 128) = n := by omega
        calc acc + n % 128 * 2 ^ shift + n / 128 * (2 ^ shift * 128)
            = acc + (n % 128 + 128 * (n / 128)) * 2 ^ shift := by ring
          _ = acc + n * 2 ^ shift := by rw [hd]
      have hm127 : n % 128 * 2 ^ shift ≤ 127 * 2 ^ shift :=
        Nat.mul_le_mul_right _ (by omega)
      have hrec := ih (n / 128) (Nat.div_lt_self (by omega) (by norm_num))
        (pre ++ [n % 128 + 128]) rest (acc + n % 128 * 2 ^ shift) (shift + 7) fuel
        (by rw [e7]; omega) (by rw [key]; exact hsum) (by simp at hfuel ⊢; omega)
      rw [key] at hrec
      have ecast : (((shift + 7 : Nat)) : Int) = (shift : Int) + 7 := by push_cast; ring
      have elen : (((pre ++ [n % 128 + 128]).length : Nat) : Int) = (pre.length : Int) + 1 := by
        simp only [List.length_append, List.length_cons, List.length_nil]
        push_cast
        ring
      rw [ecast, elen] at hrec
      have ebuf : (pre ++ [n % 128 + 128]) ++ varintEncode (n / 128) ++ rest =
          pre ++ (n % 128 + 128) :: varintEncode (n / 128) ++ rest := by
        simp
      rw [ebuf] at hrec
      rw [hrec]
      have efin : (pre.length : Int) + 1 + ((varintEncode (n / 128)).length : Int) =
          (pre.length : Int) + ((((n % 128 + 128) :: varintEncode (n / 128)).length : Nat) : Int) := by
        simp only [List.length_cons]
        push_cast
        ring
      rw [efin]

lemma readVarint_encode (pre rest : List Nat) (n : Nat) (h : n < 2 ^ 31) :
    readVarint (pre ++ varintEncode n ++ rest) (pre.length : Int) =
      .ok ((n : Int), (pre.length : Int) + ((varintEncode n).length : Int)) := by
  unfold readVarint
  have hfuel : (varintEncode n).length ≤ (pre ++ varintEncode n ++ rest).length + 1 := by
    simp [List.length_append]
    omega
  have := readVarintAux_encode n pre rest 0 0
    ((pre ++ varintEncode n ++ rest).length + 1) (by norm_num) (by simpa using h) hfuel
  simpa using this

lemma readVarintAux_allHigh (bytes : List Nat) (hh : ∀ b ∈ bytes, b &&& 128 ≠ 0) :
    ∀ (fuel i : Nat) (r s : Int), bytes.length - i < fuel →
      readVarintAux bytes fuel (i : Int) r s = .error .bufferUnderflow := by
  intro fuel
  induction fuel with
  | zero => intro i r s hf; omega
  | succ f ihf =>
    intro i r s hf
    by_cases hi : bytes.length ≤ i
    · rw [readVarintAux_succ, if_pos (by push_cast; omega)]
    · push_neg at hi
      have hby : jsByte bytes (i : Int) = bytes.getD i 0 := by
        unfold jsByte
        rw [if_pos ⟨by positivity, by push_cast; omega⟩, Int.toNat_natCast]
      have hmem : bytes.getD i 0 ∈ bytes := by
        rw [List.getD_eq_getElem bytes 0 hi]
        exact List.getElem_mem hi
      rw [readVarintAux_succ, if_neg (by push_cast; omega), hby,
        if_pos (hh _ hmem)]
      have := ihf (i + 1) (jsOr r (jsShl ((bytes.getD i 0 &&& 127 : Nat) : Int) s)) (s + 7)
        (by omega)
      push_cast at this ⊢
      exact this

lemma readVarint_allHigh (bytes : List Nat) (hh : ∀ b ∈ bytes, b &&& 128 ≠ 0) :
    readVarint bytes 0 = .error .bufferUnderflow := by
  unfold readVarint
  exact_mod_cast readVarintAux_allHigh bytes hh (bytes.length + 1) 0 0 0 (by omega)

lemma readVarintAux_advance (bytes : List Nat) :
    ∀ (fuel : Nat) (i r s v j : Int),
      readVarintAux bytes fuel i r s = .ok (v, j) → i + 1 ≤ j := by
  intro fuel
  induction fuel with
  | zero =>
    intro i r s v j h
    have h0 : readVarintAux bytes 0 i r s = .error .bufferUnderflow := rfl
    rw [h0] at h
    exact absurd h (by simp)
  | succ f ihf =>
    intro i r s v j h
    rw [readVarintAux_succ] at h
    by_cases h1 : (bytes.length : Int) ≤ i
    · rw [if_pos h1] at h; exact absurd h (by simp)
    · rw [if_neg h1] at h
      by_cases h2 : jsByte bytes i &&& 128 ≠ 0
      · rw [if_pos h2] at h
        have := ihf (i + 1) _ _ v j h
        omega
      · rw [if_neg h2] at h
        rw [Except.ok.injEq, Prod.mk.injEq] at h
        omega

lemma readVarint_advance (bytes : List Nat) (i v j : Int)
    (h : readVarint bytes i = .ok (v, j)) : i + 1 ≤ j :=
  readVarintAux_advance bytes _ i 0 0 v j h

lemma readTag_encode (pre rest : List Nat) (t : Nat) (h : t < 2 ^ 31) :
    readTag (pre ++ varintEncode t ++ rest) (pre.length : Int) =
      .ok (((t / 8 : Nat) : Int), t % 8,
        (pre.length : Int) + ((varintEncode t).length : Int)) := by
  unfold readTag
  rw [readVarint_encode pre rest t h]
  have h32 : t < 2 ^ 32 := by
    have : (2 : Nat) ^ 31 < 2 ^ 32 := by norm_num
    omega
  dsimp only
  rw [toInt32_coe t h, Int.ofNat_fdiv t 8, toUint32_coe t h32]
  norm_num

/-! ### One well-formed field as seen by skipField, readBytes and readFloat -/

lemma skipField_zero (bytes : List Nat) (i : Int) :
    skipField bytes 0 i =
      match readVarint bytes i with
      | .error e => .error e
      | .ok (_, j) => .ok j := rfl

lemma skipField_one (bytes : List Nat) (i : Int) : skipField bytes 1 i = .ok (i + 8) := rfl

lemma skipField_two (bytes : List Nat) (i : Int) :
    skipField bytes 2 i =
      match readVarint bytes i with
      | .error e => .error e
      | .ok (len, j) => .ok (j + len) := rfl

lemma skipField_five (bytes : List Nat) (i : Int) : skipField bytes 5 i = .ok (i + 4) := rfl

lemma FieldV.tag_lt (f : FieldV) (hf : WFfield f) : f.tag < 2 ^ 31 := by
  have h28 : (2 : Nat) ^ 28 * 8 = 2 ^ 31 := by norm_num
  cases f <;> simp only [FieldV.tag, FieldV.fieldNum, FieldV.wire, WFfield] at hf ⊢ <;> omega

lemma FieldV.wire_lt (f : FieldV) : f.wire < 8 := by
  cases f <;> simp [FieldV.wire]

lemma FieldV.tag_div (f : FieldV) : f.tag / 8 = f.fieldNum := by
  have hw := f.wire_lt
  cases f <;> simp only [FieldV.tag, FieldV.fieldNum, FieldV.wire] at hw ⊢ <;> omega

lemma FieldV.tag_mod (f : FieldV) : f.tag % 8 = f.wire := by
  have hw := f.wire_lt
  cases f <;> simp only [FieldV.tag, FieldV.fieldNum, FieldV.wire] at hw ⊢ <;> omega

lemma readBytes_at (pre p post : List Nat) (hp : p.length < 2 ^ 31) :
    readBytes (pre ++ (varintEncode p.length ++ p) ++ post) (pre.length : Int) =
      .ok (p, (pre.length : Int) + (((varintEncode p.length ++ p).length : Nat) : Int)) := by
  have hassoc : pre ++ (varintEncode p.length ++ p) ++ post =
      pre ++ varintEncode p.length ++ (p ++ post) := by simp
  unfold readBytes
  rw [hassoc, readVarint_encode pre (p ++ post) p.length hp]
  have hassoc2 : pre ++ varintEncode p.length ++ (p ++ post) =
      (pre ++ varintEncode p.length) ++ p ++ post := by simp
  have hl : (pre.length : Int) + ((varintEncode p.length).length : Int) =
      (((pre ++ varintEncode p.length).length : Nat) : Int) := by
    simp only [List.length_append]
    push_cast
    ring
  dsimp only
  rw [hassoc2, hl, jsSubarray_exact (pre ++ varintEncode p.length) p post]
  have : (((pre ++ varintEncode p.length).length : Nat) : Int) + (p.length : Int) =
      (pre.length : Int) + (((varintEncode p.length ++ p).length : Nat) : Int) := by
    simp only [List.length_append]
    push_cast
    ring
  rw [this]

lemma readFloat_at (pre p post : List Nat) (hp : p.length = 4) :
    readFloat (pre ++ p ++ post) (pre.length : Int) =
      .ok (.f32 (f32Word p), (pre.length : Int) + 4) := by
  unfold readFloat
  rw [if_neg (by simp only [List.length_append]; push_cast; omega),
    if_neg (by push_cast; omega), Int.toNat_natCast]
  have hg : ∀ k, k < 4 → (pre ++ p ++ post).getD (pre.length + k) 0 = p.getD k 0 := by
    intro k hk
    rw [List.append_assoc, getD_append_off]
    exact List.getD_append p post 0 k (by omega)
  have h0 := hg 0 (by norm_num)
  have h1 := hg 1 (by norm_num)
  have h2 := hg 2 (by norm_num)
  have h3 := hg 3 (by norm_num)
  rw [Nat.add_zero] at h0
  rw [h0, h1, h2, h3]
  rfl

lemma skipField_fieldBody (pre post : List Nat) (f : FieldV) (hf : WFfield f) :
    skipField (pre ++ fieldBody f ++ post) f.wire (pre.length : Int) =
      .ok ((pre.length : Int) + (((fieldBody f).length : Nat) : Int)) := by
  cases f with
  | vint fn v =>
    simp only [FieldV.wire, fieldBody]
    rw [skipField_zero, readVarint_encode pre post v hf.2]
  | f64 fn p =>
    simp only [FieldV.wire, fieldBody]
    rw [skipField_one, hf.2]
    norm_num
  | ldelim fn p =>
    simp only [FieldV.wire, fieldBody]
    rw [skipField_two]
    have hassoc : pre ++ (varintEncode p.length ++ p) ++ post =
        pre ++ varintEncode p.length ++ (p ++ post) := by simp
    rw [hassoc, readVarint_encode pre (p ++ post) p.length hf.2]
    dsimp only
    have : (pre.length : Int) + ((varintEncode p.length).length : Int) + (p.length : Int) =
        (pre.length : Int) + (((varintEncode p.length ++ p).length : Nat) : Int) := by
      simp only [List.length_append]
      push_cast
      ring
    rw [this]
  | f32 fn p =>
    simp only [FieldV.wire, fieldBody]
    rw [skipField_five, hf.2]
    norm_num

/-! ### One loop iteration of the decoders over a well-formed field -/

lemma decodeLoop_succ {α : Type} (bytes : List Nat)
    (body : α → Int → Nat → Int → Except Err (α × Int)) (fuel : Nat) (acc : α) (i : Int) :
    decodeLoop bytes body (fuel + 1) acc i =
      if (bytes.length : Int) ≤ i then some (.ok (acc, i))
      else
        match readTag bytes i with
        | .error e => some (.error e)
        | .ok (fn, w, j) =>
          match body acc fn w j with
          | .error e => some (.error e)
          | .ok (acc2, k) => decodeLoop bytes body fuel acc2 k := rfl

lemma encodeMsg_cons (f : FieldV) (fs : List FieldV) :
    encodeMsg (f :: fs) = encodeField f ++ encodeMsg fs := by
  simp [encodeMsg]

lemma encodeField_length_pos (f : FieldV) : 0 < (encodeField f).length := by
  have := varintEncode_pos f.tag
  simp only [encodeField, List.length_append]
  omega

lemma tagEnd_cast (pre : List Nat) (f : FieldV) :
    (pre.length : Int) + ((varintEncode f.tag).length : Int) =
      (((pre ++ varintEncode f.tag).length : Nat) : Int) := by
  simp only [List.length_append]
  push_cast
  ring

lemma fieldEnd_cast (pre : List Nat) (f : FieldV) :
    (((pre ++ varintEncode f.tag).length : Nat) : Int) + (((fieldBody f).length : Nat) : Int) =
      (pre.length : Int) + (((encodeField f).length : Nat) : Int) := by
  simp only [List.length_append, encodeField]
  push_cast
  ring

lemma s3Body_spec (pre post : List Nat) (f : FieldV) (acc : Structure3D) (hf : WFfield f) :
    s3Body (pre ++ encodeField f ++ post) acc ((f.fieldNum : Nat) : Int) f.wire
        ((pre.length : Int) + ((varintEncode f.tag).length : Int)) =
      .ok (s3Fold acc f, (pre.length : Int) + (((encodeField f).length : Nat) : Int)) := by
  rw [tagEnd_cast]
  cases f with
  | vint fn v =>
    simp only [WFfield] at hf
    have hBB : pre ++ encodeField (FieldV.vint fn v) ++ post =
        (pre ++ varintEncode (FieldV.vint fn v).tag) ++ varintEncode v ++ post := by
      simp [encodeField, fieldBody]
    rw [hBB]
    have hskip := skipField_fieldBody (pre ++ varintEncode (FieldV.vint fn v).tag) post
      (.vint fn v) (by simp only [WFfield]; exact hf)
    simp only [FieldV.wire, fieldBody] at hskip
    by_cases h1 : fn = 1
    · subst h1
      simp only [s3Body, FieldV.fieldNum, Nat.cast_one, if_pos rfl, FieldV.wire]
      rw [readVarint_encode _ post v hf.2, ← fieldEnd_cast]
      simp [s3Fold, fieldBody]
    · simp only [s3Body, FieldV.fieldNum, FieldV.wire]
      rw [if_neg (by exact_mod_cast h1)]
      have hgoal : Except.map (fun j => (acc, j))
          (skipField ((pre ++ varintEncode (FieldV.vint fn v).tag) ++ varintEncode v ++ post) 0
            (((pre ++ varintEncode (FieldV.vint fn v).tag).length : Nat) : Int)) =
          .ok (s3Fold acc (.vint fn v),
            (pre.length : Int) + (((encodeField (FieldV.vint fn v)).length : Nat) : Int)) := by
        rw [hskip, ← fieldEnd_cast]
        simp only [fieldBody, Except.map]
        simp [s3Fold, h1]
      split_ifs <;> first
        | exact hgoal
        | exact (False.elim (by assumption))
        | (exfalso; omega)
  | f64 fn p =>
    simp only [WFfield] at hf
    have hBB : pre ++ encodeField (FieldV.f64 fn p) ++ post =
        (pre ++ varintEncode (FieldV.f64 fn p).tag) ++ p ++ post := by
      simp [encodeField, fieldBody]
    rw [hBB]
    have hskip := skipField_fieldBody (pre ++ varintEncode (FieldV.f64 fn p).tag) post
      (.f64 fn p) (by simp only [WFfield]; exact hf)
    simp only [FieldV.wire, fieldBody] at hskip
    have hgoal : Except.map (fun j => (acc, j))
        (skipField ((pre ++ varintEncode (FieldV.f64 fn p).tag) ++ p ++ post) 1
          (((pre ++ varintEncode (FieldV.f64 fn p).tag).length : Nat) : Int)) =
        .ok (s3Fold acc (.f64 fn p),
          (pre.length : Int) + (((encodeField (FieldV.f64 fn p)).length : Nat) : Int)) := by
      rw [hskip, ← fieldEnd_cast]
      simp only [fieldBody, Except.map]
      simp [s3Fold]
    simp only [s3Body, FieldV.fieldNum, FieldV.wire]
    split_ifs <;> first
      | exact hgoal
      | exact (False.elim (by assumption))
      | (exfalso; omega)
  | ldelim fn p =>
    simp only [WFfield] at hf
    have hBB : pre ++ encodeField (FieldV.ldelim fn p) ++ post =
        (pre ++ varintEncode (FieldV.ldelim fn p).tag) ++ (varintEncode p.length ++ p) ++ post := by
      simp [encodeField, fieldBody]
    rw [hBB]
    have hskip := skipField_fieldBody (pre ++ varintEncode (FieldV.ldelim fn p).tag) post
      (.ldelim fn p) (by simp only [WFfield]; exact hf)
    simp only [FieldV.wire, fieldBody] at hskip
    have hread := readBytes_at (pre ++ varintEncode (FieldV.ldelim fn p).tag) p post hf.2
    by_cases h2 : fn = 2
    · subst h2
      simp only [s3Body, FieldV.fieldNum, FieldV.wire]
      rw [if_neg (by norm_num), if_pos (by norm_num), if_pos trivial,
        hread, ← fieldEnd_cast]
      simp [s3Fold, fieldBody]
    · by_cases h3 : fn = 3
      · subst h3
        simp only [s3Body, FieldV.fieldNum, FieldV.wire]
        rw [if_neg (by norm_num), if_neg (by norm_num), if_pos (by norm_num),
          if_pos trivial, hread, ← fieldEnd_cast]
        simp [s3Fold, fieldBody]
      · simp only [s3Body, FieldV.fieldNum, FieldV.wire]
        have hgoal : Except.map (fun j => (acc, j))
            (skipField ((pre ++ varintEncode (FieldV.ldelim fn p).tag) ++
                (varintEncode p.length ++ p) ++ post) 2
              (((pre ++ varintEncode (FieldV.ldelim fn p).tag).length : Nat) : Int)) =
            .ok (s3Fold acc (.ldelim fn p),
              (pre.length : Int) + (((encodeField (FieldV.ldelim fn p)).length : Nat) : Int)) := by
          rw [hskip, ← fieldEnd_cast]
          simp only [fieldBody, Except.map]
          simp [s3Fold, h2, h3]
        split_ifs <;> first
          | exact hgoal
          | exact (False.elim (by assumption))
          | (exfalso; omega)
  | f32 fn p =>
    simp only [WFfield] at hf
    have hBB : pre ++ encodeField (FieldV.f32 fn p) ++ post =
        (pre ++ varintEncode (FieldV.f32 fn p).tag) ++ p ++ post := by
      simp [encodeField, fieldBody]
    rw [hBB]
    have hskip := skipField_fieldBody (pre ++ varintEncode (FieldV.f32 fn p).tag) post
      (.f32 fn p) (by simp only [WFfield]; exact hf)
    simp only [FieldV.wire, fieldBody] at hskip
    have hgoal : Except.map (fun j => (acc, j))
        (skipField ((pre ++ varintEncode (FieldV.f32 fn p).tag) ++ p ++ post) 5
          (((pre ++ varintEncode (FieldV.f32 fn p).tag).length : Nat) : Int)) =
        .ok (s3Fold acc (.f32 fn p),
          (pre.length : Int) + (((encodeField (FieldV.f32 fn p)).length : Nat) : Int)) := by
      rw [hskip, ← fieldEnd_cast]
      simp only [fieldBody, Except.map]
      simp [s3Fold]
    simp only [s3Body, FieldV.fieldNum, FieldV.wire]
    split_ifs <;> first
      | exact hgoal
      | exact (False.elim (by assumption))
      | (exfalso; omega)

lemma skipBody_spec (pre post : List Nat) (f : FieldV) (hf : WFfield f) :
    Except.map (fun j => (((), j) : Unit × Int))
        (skipField (pre ++ encodeField f ++ post) f.wire
          ((pre.length : Int) + ((varintEncode f.tag).length : Int))) =
      .ok ((), (pre.length : Int) + (((encodeField f).length : Nat) : Int)) := by
  rw [tagEnd_cast]
  have hBB : pre ++ encodeField f ++ post =
      (pre ++ varintEncode f.tag) ++ fieldBody f ++ post := by
    simp [encodeField]
  rw [hBB, skipField_fieldBody (pre ++ varintEncode f.tag) post f hf, ← fieldEnd_cast]
  rfl

set_option maxHeartbeats 1000000 in
lemma intrBody_spec (pre post : List Nat) (f : FieldV) (acc : CameraIntrinsics)
    (hf : WFfield f) :
    intrBody (pre ++ encodeField f ++ post) acc ((f.fieldNum : Nat) : Int) f.wire
        ((pre.length : Int) + ((varintEncode f.tag).length : Int)) =
      .ok (intrFold acc f, (pre.length : Int) + (((encodeField f).length : Nat) : Int)) := by
  rw [tagEnd_cast]
  cases f with
  | vint fn v =>
    simp only [WFfield] at hf
    have hBB : pre ++ encodeField (FieldV.vint fn v) ++ post =
        (pre ++ varintEncode (FieldV.vint fn v).tag) ++ varintEncode v ++ post := by
      simp [encodeField, fieldBody]
    rw [hBB]
    have hskip := skipField_fieldBody (pre ++ varintEncode (FieldV.vint fn v).tag) post
      (.vint fn v) (by simp only [WFfield]; exact hf)
    simp only [FieldV.wire, fieldBody] at hskip
    by_cases h1 : fn = 1
    · subst h1
      simp only [intrBody, FieldV.fieldNum, Nat.cast_one, if_pos rfl, FieldV.wire]
      rw [readVarint_encode _ post v hf.2, ← fieldEnd_cast]
      simp [intrFold, fieldBody]
    · by_cases h2 : fn = 2
      · subst h2
        simp only [intrBody, FieldV.fieldNum, FieldV.wire]
        rw [if_neg (by norm_num), if_pos (by norm_num), if_pos (by norm_num),
          readVarint_encode _ post v hf.2, ← fieldEnd_cast]
        simp [intrFold, fieldBody]
      · simp only [intrBody, FieldV.fieldNum, FieldV.wire]
        have hgoal : Except.map (fun j => (acc, j))
            (skipField ((pre ++ varintEncode (FieldV.vint fn v).tag) ++ varintEncode v ++ post) 0
              (((pre ++ varintEncode (FieldV.vint fn v).tag).length : Nat) : Int)) =
            .ok (intrFold acc (.vint fn v),
              (pre.length : Int) + (((encodeField (FieldV.vint fn v)).length : Nat) : Int)) := by
          rw [hskip, ← fieldEnd_cast]
          simp only [fieldBody, Except.map]
          simp [intrFold, h1, h2]
        split_ifs <;> first
          | exact hgoal
          | exact (False.elim (by assumption))
          | (exfalso; omega)
  | f64 fn p =>
    simp only [WFfield] at hf
    have hBB : pre ++ encodeField (FieldV.f64 fn p) ++ post =
        (pre ++ varintEncode (FieldV.f64 fn p).tag) ++ p ++ post := by
      simp [encodeField, fieldBody]
    rw [hBB]
    have hskip := skipField_fieldBody (pre ++ varintEncode (FieldV.f64 fn p).tag) post
      (.f64 fn p) (by simp only [WFfield]; exact hf)
    simp only [FieldV.wire, fieldBody] at hskip
    have hgoal : Except.map (fun j => (acc, j))
        (skipField ((pre ++ varintEncode (FieldV.f64 fn p).tag) ++ p ++ post) 1
          (((pre ++ varintEncode (FieldV.f64 fn p).tag).length : Nat) : Int)) =
        .ok (intrFold acc (.f64 fn p),
          (pre.length : Int) + (((encodeField (FieldV.f64 fn p)).length : Nat) : Int)) := by
      rw [hskip, ← fieldEnd_cast]
      simp only [fieldBody, Except.map]
      simp [intrFold]
    simp only [intrBody, FieldV.fieldNum, FieldV.wire]
    split_ifs <;> first
      | exact hgoal
      | exact (False.elim (by assumption))
      | (exfalso; omega)
  | ldelim fn p =>
    simp only [WFfield] at hf
    have hBB : pre ++ encodeField (FieldV.ldelim fn p) ++ post =
        (pre ++ varintEncode (FieldV.ldelim fn p).tag) ++ (varintEncode p.length ++ p) ++ post := by
      simp [encodeField, fieldBody]
    rw [hBB]
    have hskip := skipField_fieldBody (pre ++ varintEncode (FieldV.ldelim fn p).tag) post
      (.ldelim fn p) (by simp only [WFfield]; exact hf)
    simp only [FieldV.wire, fieldBody] at hskip
    have hgoal : Except.map (fun j => (acc, j))
        (skipField ((pre ++ varintEncode (FieldV.ldelim fn p).tag) ++
            (varintEncode p.length ++ p) ++ post) 2
          (((pre ++ varintEncode (FieldV.ldelim fn p).tag).length : Nat) : Int)) =
        .ok (intrFold acc (.ldelim fn p),
          (pre.length : Int) + (((encodeField (FieldV.ldelim fn p)).length : Nat) : Int)) := by
      rw [hskip, ← fieldEnd_cast]
      simp only [fieldBody, Except.map]
      simp [intrFold]
    simp only [intrBody, FieldV.fieldNum, FieldV.wire]
    split_ifs <;> first
      | exact hgoal
      | exact (False.elim (by assumption))
      | (exfalso; omega)
  | f32 fn p =>
    simp only [WFfield] at hf
    have hBB : pre ++ encodeField (FieldV.f32 fn p) ++ post =
        (pre ++ varintEncode (FieldV.f32 fn p).tag) ++ p ++ post := by
      simp [encodeField, fieldBody]
    rw [hBB]
    have hskip := skipField_fieldBody (pre ++ varintEncode (FieldV.f32 fn p).tag) post
      (.f32 fn p) (by simp only [WFfield]; exact hf)
    simp only [FieldV.wire, fieldBody] at hskip
    have hread := readFloat_at (pre ++ varintEncode (FieldV.f32 fn p).tag) p post hf.2
    have e4 : (((pre ++ varintEncode (FieldV.f32 fn p).tag).length : Nat) : Int) + 4 =
        (pre.length : Int) + (((encodeField (FieldV.f32 fn p)).length : Nat) : Int) := by
      have hfe := fieldEnd_cast pre (.f32 fn p)
      simp only [fieldBody] at hfe
      rw [hf.2] at hfe
      push_cast at hfe ⊢
      exact hfe
    by_cases h3 : fn = 3
    · subst h3
      simp only [intrBody, FieldV.fieldNum, FieldV.wire]
      rw [if_neg (by norm_num), if_neg (by norm_num), if_pos (by norm_num),
        if_pos (by norm_num), hread, e4]
      simp [intrFold]
    · by_cases h4 : fn = 4
      · subst h4
        simp only [intrBody, FieldV.fieldNum, FieldV.wire]
        rw [if_neg (by norm_num), if_neg (by norm_num), if_neg (by norm_num),
          if_pos (by norm_num), if_pos (by norm_num), hread, e4]
        simp [intrFold]
      · by_cases h5 : fn = 5
        · subst h5
          simp only [intrBody, FieldV.fieldNum, FieldV.wire]
          rw [if_neg (by norm_num), if_neg (by norm_num), if_neg (by norm_num),
            if_neg (by norm_num), if_pos (by norm_num), if_pos (by norm_num), hread, e4]
          simp [intrFold]
        · by_cases h6 : fn = 6
          · subst h6
            simp only [intrBody, FieldV.fieldNum, FieldV.wire]
            rw [if_neg (by norm_num), if_neg (by norm_num), if_neg (by norm_num),
              if_neg (by norm_num), if_neg (by norm_num), if_pos (by norm_num),
              if_pos (by norm_num), hread, e4]
            simp [intrFold]
          · simp only [intrBody, FieldV.fieldNum, FieldV.wire]
            have hgoal : Except.map (fun j => (acc, j))
                (skipField ((pre ++ varintEncode (FieldV.f32 fn p).tag) ++ p ++ post) 5
                  (((pre ++ varintEncode (FieldV.f32 fn p).tag).length : Nat) : Int)) =
                .ok (intrFold acc (.f32 fn p),
                  (pre.length : Int) + (((encodeField (FieldV.f32 fn p)).length : Nat) : Int)) := by
              rw [hskip, ← fieldEnd_cast]
              simp only [fieldBody, Except.map]
              simp [intrFold, h3, h4, h5, h6]
            split_ifs <;> first
              | exact hgoal
              | exact (False.elim (by assumption))
              | (exfalso; omega)

/-! ### The decode loop over a whole well-formed message -/

lemma decodeLoop_fields {α : Type}
    (mkBody : List Nat → α → Int → Nat → Int → Except Err (α × Int)) (fold : α → FieldV → α)
    (hbody : ∀ (pre post : List Nat) (f : FieldV) (acc : α), WFfield f →
      mkBody (pre ++ encodeField f ++ post) acc ((f.fieldNum : Nat) : Int) f.wire
          ((pre.length : Int) + ((varintEncode f.tag).length : Int)) =
        .ok (fold acc f, (pre.length : Int) + (((encodeField f).length : Nat) : Int))) :
    ∀ (fs : List FieldV) (pre : List Nat) (acc : α) (fuel : Nat),
      (∀ f ∈ fs, WFfield f) → fs.length < fuel →
      decodeLoop (pre ++ encodeMsg fs) (mkBody (pre ++ encodeMsg fs)) fuel acc
          (pre.length : Int) =
        some (.ok (fs.foldl fold acc, (((pre ++ encodeMsg fs).length : Nat) : Int))) := by
  intro fs
  induction fs with
  | nil =>
    intro pre acc fuel hwf hfuel
    obtain ⟨fu, rfl⟩ : ∃ x, fuel = x + 1 := ⟨fuel - 1, by omega⟩
    have hmsg : encodeMsg ([] : List FieldV) = [] := rfl
    rw [hmsg, List.append_nil, decodeLoop_succ, if_pos (le_refl _)]
    rfl
  | cons f fs ih =>
    intro pre acc fuel hwf hfuel
    obtain ⟨fu, rfl⟩ : ∃ x, fuel = x + 1 := ⟨fuel - 1, by omega⟩
    have hwf_f : WFfield f := hwf f (by simp)
    have hwf_fs : ∀ g ∈ fs, WFfield g := fun g hg => hwf g (by simp [hg])
    have hmsg : encodeMsg (f :: fs) = encodeField f ++ encodeMsg fs := encodeMsg_cons f fs
    rw [hmsg]
    have hBassoc : pre ++ (encodeField f ++ encodeMsg fs) =
        pre ++ encodeField f ++ encodeMsg fs := (List.append_assoc pre _ _).symm
    rw [hBassoc, decodeLoop_succ]
    have hne : ¬ ((((pre ++ encodeField f ++ encodeMsg fs).length : Nat) : Int) ≤
        (pre.length : Int)) := by
      have := encodeField_length_pos f
      simp only [List.length_append]
      push_cast
      omega
    rw [if_neg hne]
    have hB3 : pre ++ encodeField f ++ encodeMsg fs =
        pre ++ varintEncode f.tag ++ (fieldBody f ++ encodeMsg fs) := by
      simp [encodeField]
    rw [hB3, readTag_encode pre (fieldBody f ++ encodeMsg fs) f.tag (f.tag_lt hwf_f)]
    dsimp only
    rw [FieldV.tag_div, FieldV.tag_mod, ← hB3]
    rw [hbody pre (encodeMsg fs) f acc hwf_f]
    dsimp only
    have hc : (pre.length : Int) + (((encodeField f).length : Nat) : Int) =
        (((pre ++ encodeField f).length : Nat) : Int) := by
      simp only [List.length_append]
      push_cast
      ring
    rw [hc]
    have hrec := ih (pre ++ encodeField f) (fold acc f) fu hwf_fs
      (by simp only [List.length_cons] at hfuel; omega)
    rw [hrec, List.append_assoc]
    rfl

lemma decodeStructure3D_msg (fs : List FieldV) (fuel : Nat)
    (hwf : ∀ f ∈ fs, WFfield f) (hfuel : fs.length < fuel) :
    decodeStructure3D fuel (encodeMsg fs) =
      some (.ok (fs.foldl s3Fold s3Init, (((encodeMsg fs).length : Nat) : Int))) := by
  have := decodeLoop_fields s3Body s3Fold
    (fun pre post f acc hf => s3Body_spec pre post f acc hf) fs [] s3Init fuel hwf hfuel
  simpa [decodeStructure3D] using this

lemma decodeCameraIntrinsics_msg (fs : List FieldV) (fuel : Nat)
    (hwf : ∀ f ∈ fs, WFfield f) (hfuel : fs.length < fuel) :
    decodeCameraIntrinsics fuel (encodeMsg fs) =
      some (.ok (fs.foldl intrFold defaultIntrinsics, (((encodeMsg fs).length : Nat) : Int))) := by
  have := decodeLoop_fields intrBody intrFold
    (fun pre post f acc hf => intrBody_spec pre post f acc hf) fs [] defaultIntrinsics fuel
    hwf hfuel
  simpa [decodeCameraIntrinsics] using this

/-! ### Cursor behaviour of the decode loop (skip-correctness) -/

lemma s3Body_cursor (bytes : List Nat) (acc : Structure3D) (fn : Int) (w : Nat) (i : Int) :
    (s3Body bytes acc fn w i).map Prod.snd = skipField bytes w i := by
  unfold s3Body
  split_ifs with h1 h2 h3 h4 h5 h6
  · rw [h2, skipField_zero]
    cases hv : readVarint bytes i with
    | error e => rfl
    | ok p => rcases p with ⟨v, j⟩; rfl
  · cases hs : skipField bytes w i <;> rfl
  · rw [h4, skipField_two]
    unfold readBytes
    cases hv : readVarint bytes i with
    | error e => rfl
    | ok p => rcases p with ⟨len, j⟩; rfl
  · cases hs : skipField bytes w i <;> rfl
  · rw [h6, skipField_two]
    unfold readBytes
    cases hv : readVarint bytes i with
    | error e => rfl
    | ok p => rcases p with ⟨len, j⟩; rfl
  · cases hs : skipField bytes w i <;> rfl
  · cases hs : skipField bytes w i <;> rfl

lemma decodeLoop_cursor {α β : Type} (bytes : List Nat)
    (b1 : α → Int → Nat → Int → Except Err (α × Int))
    (b2 : β → Int → Nat → Int → Except Err (β × Int))
    (h : ∀ a b fn w i, (b1 a fn w i).map Prod.snd = (b2 b fn w i).map Prod.snd) :
    ∀ (fuel : Nat) (a : α) (b : β) (i : Int),
      (decodeLoop bytes b1 fuel a i).map (Except.map Prod.snd) =
        (decodeLoop bytes b2 fuel b i).map (Except.map Prod.snd) := by
  intro fuel
  induction fuel with
  | zero => intro a b i; rfl
  | succ fu ihf =>
    intro a b i
    rw [decodeLoop_succ, decodeLoop_succ]
    by_cases hend : (bytes.length : Int) ≤ i
    · rw [if_pos hend, if_pos hend]
      rfl
    · rw [if_neg hend, if_neg hend]
      cases ht : readTag bytes i with
      | error e => rfl
      | ok t =>
        obtain ⟨fn, w, j⟩ := t
        dsimp only
        have hb := h a b fn w j
        cases h1 : b1 a fn w j with
        | error e =>
          cases h2 : b2 b fn w j with
          | error e2 =>
            rw [h1, h2] at hb
            simp only [Except.map] at hb
            injection hb with hb2
            subst hb2
            rfl
          | ok p2 =>
            rcases p2 with ⟨x, y⟩
            rw [h1, h2] at hb
            simp [Except.map] at hb
        | ok p =>
          rcases p with ⟨a2, k⟩
          cases h2 : b2 b fn w j with
          | error e2 =>
            rw [h1, h2] at hb
            simp [Except.map] at hb
          | ok p2 =>
            rcases p2 with ⟨b2v, k2⟩
            have hk : k = k2 := by
              rw [h1, h2] at hb
              simp only [Except.map] at hb
              exact Except.ok.inj hb
            subst hk
            exact ihf a2 b2v k

lemma decodeLoop_ok_ge {α : Type} (bytes : List Nat)
    (body : α → Int → Nat → Int → Except Err (α × Int)) :
    ∀ (fuel : Nat) (acc : α) (i : Int) (r : α) (c : Int),
      decodeLoop bytes body fuel acc i = some (.ok (r, c)) → (bytes.length : Int) ≤ c := by
  intro fuel
  induction fuel with
  | zero => intro acc i r c hc; exact absurd hc (by simp [decodeLoop])
  | succ fu ihf =>
    intro acc i r c hc
    rw [decodeLoop_succ] at hc
    by_cases hend : (bytes.length : Int) ≤ i
    · rw [if_pos hend] at hc
      injection hc with hc2
      injection hc2 with hc3
      rw [Prod.mk.injEq] at hc3
      omega
    · rw [if_neg hend] at hc
      cases ht : readTag bytes i with
      | error e => rw [ht] at hc; simp at hc
      | ok t =>
        obtain ⟨fn, w, j⟩ := t
        rw [ht] at hc
        dsimp only at hc
        cases h1 : body acc fn w j with
        | error e => rw [h1] at hc; simp at hc
        | ok p =>
          rw [h1] at hc
          dsimp only at hc
          rcases p with ⟨a2, k⟩
          exact ihf a2 k r c hc

/-! ### Fold neutrality of skipped fields -/

lemma s3Skips_fold (x : FieldV) (hx : s3Skips x) (acc : Structure3D) : s3Fold acc x = acc := by
  cases x with
  | vint fn v =>
    simp only [s3Skips, FieldV.fieldNum, FieldV.wire] at hx
    have h1 : fn ≠ 1 := by
      rcases hx with ⟨h, _, _⟩ | ⟨_, h0⟩ | ⟨h23, _⟩
      · exact h
      · exact absurd rfl h0
      · rcases h23 with h | h <;> omega
    simp [s3Fold, h1]
  | f64 fn p => simp [s3Fold]
  | ldelim fn p =>
    simp only [s3Skips, FieldV.fieldNum, FieldV.wire] at hx
    have h23 : fn ≠ 2 ∧ fn ≠ 3 := by
      rcases hx with ⟨_, h2, h3⟩ | ⟨h1, _⟩ | ⟨_, hw⟩
      · exact ⟨h2, h3⟩
      · omega
      · exact absurd rfl hw
    simp [s3Fold, h23.1, h23.2]
  | f32 fn p => simp [s3Fold]

lemma intrSkips_fold (x : FieldV) (hx : intrSkips x) (acc : CameraIntrinsics) :
    intrFold acc x = acc := by
  cases x with
  | vint fn v =>
    simp only [intrSkips, FieldV.fieldNum, FieldV.wire] at hx
    have h12 : fn ≠ 1 ∧ fn ≠ 2 := by
      rcases hx with h | ⟨_, h0⟩ | ⟨h36, _⟩
      · simp at h
        omega
      · exact absurd rfl h0
      · simp at h36
        omega
    simp [intrFold, h12.1, h12.2]
  | f64 fn p => simp [intrFold]
  | ldelim fn p => simp [intrFold]
  | f32 fn p =>
    simp only [intrSkips, FieldV.fieldNum, FieldV.wire] at hx
    have h36 : fn ≠ 3 ∧ fn ≠ 4 ∧ fn ≠ 5 ∧ fn ≠ 6 := by
      rcases hx with h | ⟨h12, _⟩ | ⟨_, hw⟩
      · simp at h
        omega
      · omega
      · exact absurd rfl hw
    simp [intrFold, h36.1, h36.2.1, h36.2.2.1, h36.2.2.2]

/-! ### Claims about the wire-format decoder -/

/-- C1: the source readBytes performs no bound check.  On the buffer [0x05]
(a varint length prefix of 5 with zero bytes remaining) it succeeds,
returning an empty truncated view and advancing the cursor to 6, past the
end of the one-byte buffer, instead of failing with BufferUnderflow as the
specification mandates. -/
theorem c1_readBytes_unchecked :
    readBytes [5] 0 = .ok ([], 6) ∧ readBytes [5] 0 ≠ .error .bufferUnderflow := by
  constructor
  · rfl
  · intro h
    rw [show readBytes [5] 0 = .ok ([], 6) from rfl] at h
    exact Except.noConfusion h

/-- C3: for every non-negative integer below 2^31, readVarint applied to
its standard base-128 little-endian encoding returns exactly that value
and leaves the cursor just past the encoding; and on every buffer that
ends before a byte with the continuation bit clear appears, readVarint
fails with BufferUnderflow. -/
theorem c3_varint_roundtrip_and_underflow :
    (∀ n : Nat, n < 2 ^ 31 →
      readVarint (varintEncode n) 0 = .ok ((n : Int), ((varintEncode n).length : Int))) ∧
    (∀ bytes : List Nat, (∀ b ∈ bytes, b &&& 128 ≠ 0) →
      readVarint bytes 0 = .error .bufferUnderflow) := by
  constructor
  · intro n hn
    have := readVarint_encode [] [] n hn
    simpa using this
  · intro bytes hb
    exact readVarint_allHigh bytes hb

/-- Witness for C3 at n = 300 and at the truncated buffer 0x80 0x80. -/
theorem c3_varint_roundtrip_and_underflow_witness :
    readVarint (varintEncode 300) 0 = .ok (300, ((varintEncode 300).length : Int)) ∧
    readVarint [128, 128] 0 = .error .bufferUnderflow :=
  ⟨c3_varint_roundtrip_and_underflow.1 300 (by norm_num),
   c3_varint_roundtrip_and_underflow.2 [128, 128] (by decide)⟩

/-- C4: decoding a well-formed CameraIntrinsics message that contains only
field 5 (fx, fixed32) yields a record equal to the process-wide defaults
in every other field, with fx the decoded 32-bit word; the decoder is a
pure function of the message bytes that starts from defaultIntrinsics on
every call, so no previously-held intrinsics value can influence the
result. -/
theorem c4_intrinsics_only_fx :
    ∀ b0 b1 b2 b3 : Nat,
      decodeCameraIntrinsics 2 (encodeMsg [FieldV.f32 5 [b0, b1, b2, b3]]) =
        some (.ok ({ defaultIntrinsics with fx := .f32 (leWord b0 b1 b2 b3) },
          (((encodeMsg [FieldV.f32 5 [b0, b1, b2, b3]]).length : Nat) : Int))) := by
  intro b0 b1 b2 b3
  have hmsg := decodeCameraIntrinsics_msg [FieldV.f32 5 [b0, b1, b2, b3]] 2
    (by
      intro f hf
      simp only [List.mem_singleton] at hf
      subst hf
      exact ⟨by norm_num, rfl⟩)
    (by norm_num)
  have efold : List.foldl intrFold defaultIntrinsics [FieldV.f32 5 [b0, b1, b2, b3]] =
      { defaultIntrinsics with fx := .f32 (leWord b0 b1 b2 b3) } := rfl
  rw [efold] at hmsg
  exact hmsg

/-- C6: on any buffer on which the full decodeStructure3D loop terminates
without error, the loop with every field handler removed (all fields
processed by skipField) terminates as well, with isAtEnd true, at exactly
the same final cursor position. -/
theorem c6_skip_consumes_same :
    ∀ (bytes : List Nat) (fuel : Nat) (r : Structure3D) (c : Int),
      decodeStructure3D fuel bytes = some (.ok (r, c)) →
      skipDecode fuel bytes = some (.ok ((), c)) ∧ (bytes.length : Int) ≤ c := by
  intro bytes fuel r c hdec
  have hge := decodeLoop_ok_ge bytes (s3Body bytes) fuel s3Init 0 r c hdec
  refine ⟨?_, hge⟩
  have hcur := decodeLoop_cursor bytes (s3Body bytes)
    (fun _ _ w i => (skipField bytes w i).map fun j => ((), j))
    (fun a b fn w i => by
      rw [s3Body_cursor]
      show skipField bytes w i = ((skipField bytes w i).map fun j => ((), j)).map Prod.snd
      cases hs : skipField bytes w i <;> rfl)
    fuel s3Init () 0
  have hL : (decodeLoop bytes (s3Body bytes) fuel s3Init 0).map (Except.map Prod.snd) =
      some (.ok c) := by
    have hd : decodeLoop bytes (s3Body bytes) fuel s3Init 0 = some (.ok (r, c)) := hdec
    rw [hd]
    rfl
  rw [hL] at hcur
  show decodeLoop bytes (fun _ _ w i => (skipField bytes w i).map fun j => ((), j))
      fuel () 0 = some (.ok ((), c))
  cases hval : decodeLoop bytes (fun _ _ w i => (skipField bytes w i).map fun j => ((), j))
      fuel () 0 with
  | none => rw [hval] at hcur; simp at hcur
  | some e =>
    rw [hval] at hcur
    cases e with
    | error er => simp [Except.map] at hcur
    | ok p =>
      rcases p with ⟨u, c2⟩
      simp only [Option.map, Except.map] at hcur
      injection hcur with h1
      injection h1 with h2
      subst h2
      cases u
      rfl

/-- Witness for C6 on the two-byte message field1 varint 5. -/
theorem c6_skip_consumes_same_witness :
    skipDecode 3 [8, 5] = some (.ok ((), 2)) ∧ (([8, 5] : List Nat).length : Int) ≤ 2 :=
  c6_skip_consumes_same [8, 5] 3 { fileType := 5, data := [], label := [] } 2 (by decide)

/-- C7: appending one extra well-formed field that decodeStructure3D or
decodeCameraIntrinsics skips (unregistered field number, or a wire type
mismatching the registered handler) to an otherwise well-formed message
leaves the decoded result of the known fields unchanged; the extra field
is skipped, never an error. -/
theorem c7_unknown_field_tolerance :
    (∀ (fs : List FieldV) (x : FieldV), (∀ f ∈ fs, WFfield f) → WFfield x → s3Skips x →
      decodeStructure3D (fs.length + 2) (encodeMsg (fs ++ [x])) =
        some (.ok (fs.foldl s3Fold s3Init, (((encodeMsg (fs ++ [x])).length : Nat) : Int))) ∧
      decodeStructure3D (fs.length + 1) (encodeMsg fs) =
        some (.ok (fs.foldl s3Fold s3Init, (((encodeMsg fs).length : Nat) : Int)))) ∧
    (∀ (fs : List FieldV) (x : FieldV), (∀ f ∈ fs, WFfield f) → WFfield x → intrSkips x →
      decodeCameraIntrinsics (fs.length + 2) (encodeMsg (fs ++ [x])) =
        some (.ok (fs.foldl intrFold defaultIntrinsics,
          (((encodeMsg (fs ++ [x])).length : Nat) : Int))) ∧
      decodeCameraIntrinsics (fs.length + 1) (encodeMsg fs) =
        some (.ok (fs.foldl intrFold defaultIntrinsics,
          (((encodeMsg fs).length : Nat) : Int)))) := by
  constructor
  · intro fs x hwf hx hskip
    have hwf2 : ∀ f ∈ fs ++ [x], WFfield f := by
      intro f hf
      rcases List.mem_append.mp hf with h | h
      · exact hwf f h
      · simp only [List.mem_singleton] at h
        subst h
        exact hx
    have h1 := decodeStructure3D_msg (fs ++ [x]) (fs.length + 2) hwf2 (by simp)
    have h2 := decodeStructure3D_msg fs (fs.length + 1) hwf (by omega)
    rw [List.foldl_append] at h1
    simp only [List.foldl_cons, List.foldl_nil] at h1
    rw [s3Skips_fold x hskip] at h1
    exact ⟨h1, h2⟩
  · intro fs x hwf hx hskip
    have hwf2 : ∀ f ∈ fs ++ [x], WFfield f := by
      intro f hf
      rcases List.mem_append.mp hf with h | h
      · exact hwf f h
      · simp only [List.mem_singleton] at h
        subst h
        exact hx
    have h1 := decodeCameraIntrinsics_msg (fs ++ [x]) (fs.length + 2) hwf2 (by simp)
    have h2 := decodeCameraIntrinsics_msg fs (fs.length + 1) hwf (by omega)
    rw [List.foldl_append] at h1
    simp only [List.foldl_cons, List.foldl_nil] at h1
    rw [intrSkips_fold x hskip] at h1
    exact ⟨h1, h2⟩

/-- Witness for C7: message field1=7 plus an extra field 9 (varint), for
both decoders. -/
theorem c7_unknown_field_tolerance_witness :
    (decodeStructure3D 3 (encodeMsg ([FieldV.vint 1 7] ++ [FieldV.vint 9 1])) =
      some (.ok ([FieldV.vint 1 7].foldl s3Fold s3Init,
        (((encodeMsg ([FieldV.vint 1 7] ++ [FieldV.vint 9 1])).length : Nat) : Int))) ∧
    decodeStructure3D 2 (encodeMsg [FieldV.vint 1 7]) =
      some (.ok ([FieldV.vint 1 7].foldl s3Fold s3Init,
        (((encodeMsg [FieldV.vint 1 7]).length : Nat) : Int)))) ∧
    (decodeCameraIntrinsics 3 (encodeMsg ([FieldV.vint 1 7] ++ [FieldV.vint 9 1])) =
      some (.ok ([FieldV.vint 1 7].foldl intrFold defaultIntrinsics,
        (((encodeMsg ([FieldV.vint 1 7] ++ [FieldV.vint 9 1])).length : Nat) : Int))) ∧
    decodeCameraIntrinsics 2 (encodeMsg [FieldV.vint 1 7]) =
      some (.ok ([FieldV.vint 1 7].foldl intrFold defaultIntrinsics,
        (((encodeMsg [FieldV.vint 1 7]).length : Nat) : Int)))) :=
  ⟨c7_unknown_field_tolerance.1 [FieldV.vint 1 7] (FieldV.vint 9 1)
      (by intro f hf; simp only [List.mem_singleton] at hf; subst hf; exact ⟨by norm_num, by norm_num⟩)
      ⟨by norm_num, by norm_num⟩
      (Or.inl ⟨by decide, by decide, by decide⟩),
   c7_unknown_field_tolerance.2 [FieldV.vint 1 7] (FieldV.vint 9 1)
      (by intro f hf; simp only [List.mem_singleton] at hf; subst hf; exact ⟨by norm_num, by norm_num⟩)
      ⟨by norm_num, by norm_num⟩
      (Or.inl (by decide))⟩

/-- C10 counterexample: on the six-byte buffer tag(field2, wire2) followed
by the five-byte varint 0x80 0x80 0x80 0x80 0x08, whose value is read as
the 32-bit signed integer -2^31, the first loop iteration of
decodeStructure3D moves the cursor from 0 to 6 - 2^31 — strictly
backwards, refuting the claim that every iteration advances the cursor by
at least one byte; the loop then keeps re-reading the buffer and makes no
progress towards termination (100 iterations of fuel are exhausted). -/
theorem c10_cursor_regresses :
    readTag [18, 128, 128, 128, 128, 8] 0 = .ok (2, 2, 1) ∧
    s3Body [18, 128, 128, 128, 128, 8] s3Init 2 2 1 =
      .ok ({ fileType := 0, data := [], label := [] }, 6 - 2 ^ 31) ∧
    ¬ ((0 : Int) + 1 ≤ 6 - 2 ^ 31) ∧
    decodeStructure3D 100 [18, 128, 128, 128, 128, 8] = none := by
  refine ⟨by decide, by decide, by decide, by decide⟩

/-- C10 amended: readTag always consumes at least one byte when it
succeeds, and on well-formed messages both decoders terminate with the
cursor exactly at the end of the buffer; on arbitrary buffers a
length-delimited field whose length decodes to a negative 32-bit value
moves the cursor backwards, so termination holds for well-formed input
rather than for every buffer. -/
theorem c10_wf_termination :
    (∀ (bytes : List Nat) (i v j : Int), readVarint bytes i = .ok (v, j) → i + 1 ≤ j) ∧
    (∀ fs : List FieldV, (∀ f ∈ fs, WFfield f) →
      decodeStructure3D (fs.length + 1) (encodeMsg fs) =
        some (.ok (fs.foldl s3Fold s3Init, (((encodeMsg fs).length : Nat) : Int))) ∧
      decodeCameraIntrinsics (fs.length + 1) (encodeMsg fs) =
        some (.ok (fs.foldl intrFold defaultIntrinsics,
          (((encodeMsg fs).length : Nat) : Int)))) := by
  constructor
  · exact fun bytes i v j h => readVarint_advance bytes i v j h
  · intro fs hwf
    exact ⟨decodeStructure3D_msg fs _ hwf (by omega),
      decodeCameraIntrinsics_msg fs _ hwf (by omega)⟩

/-- Witness for the amended C10. -/
theorem c10_wf_termination_witness :
    ((0 : Int) + 1 ≤ 1) ∧
    decodeStructure3D 2 (encodeMsg [FieldV.vint 1 1]) =
      some (.ok ([FieldV.vint 1 1].foldl s3Fold s3Init,
        (((encodeMsg [FieldV.vint 1 1]).length : Nat) : Int))) :=
  ⟨c10_wf_termination.1 [5] 0 5 1 (by decide),
   (c10_wf_termination.2 [FieldV.vint 1 1]
      (by intro f hf; simp only [List.mem_singleton] at hf; subst hf;
          exact ⟨by norm_num, by norm_num⟩)).1⟩

/-! ### Claims about the scene synchronizer and the response dispatcher -/

/-- C2: out-of-order load completion.  Request loads for assets 0 and 1,
complete 1, delete 0 from the asset list, then complete 0: the onLoad
callback registers identity 0 unconditionally (the source performs no
still-desired check), so the final registry holds the key list 1, 0 —
the deleted asset is resurrected, where the claim demands the registry
contain only asset 1. -/
theorem c2_removed_asset_resurrected :
    (sceneRun [.assetsChanged [0, 1], .loadCompleted 1, .assetsChanged [1], .loadCompleted 0]
        sceneInit).models = [1, 0] ∧
    0 ∈ (sceneRun [.assetsChanged [0, 1], .loadCompleted 1, .assetsChanged [1],
        .loadCompleted 0] sceneInit).models := by
  decide

lemma partEffect_fails (fuel : Nat) (core : CoreState) (p : Part)
    (hp : DecodeFails fuel p) : partEffect fuel core p = (core, [.partError]) := by
  cases p with
  | pS3 bytes =>
    obtain ⟨e, he⟩ := hp
    simp [partEffect, he]
  | pIntr bytes =>
    obtain ⟨e, he⟩ := hp
    simp [partEffect, he]
  | pJson v =>
    have hv : v = none := hp
    subst hv
    rfl
  | ptext => exact absurd hp (by simp [DecodeFails])
  | pPly bytes => exact absurd hp (by simp [DecodeFails])
  | pOther => exact absurd hp (by simp [DecodeFails])

lemma foldl_processPart_core (fuel : Nat) :
    ∀ (ys : List Part) (c : CoreState) (d1 d2 : List Diag),
      (List.foldl (processPart fuel) { core := c, diags := d1 } ys).core =
        (List.foldl (processPart fuel) { core := c, diags := d2 } ys).core := by
  intro ys
  induction ys with
  | nil => intro c d1 d2; rfl
  | cons y ys ih =>
    intro c d1 d2
    simp only [List.foldl_cons, processPart]
    exact ih _ _ _

lemma processResponse_core (fuel : Nat) (parts : List Part) (st : AppState) :
    (processResponse fuel parts st).core =
      (List.foldl (processPart fuel)
        { st with core := { st.core with created := false } } parts).core := by
  simp only [processResponse]
  split_ifs <;> rfl

/-- C9: a decode failure on one part is caught and reported as a
diagnostic, and every other part is processed exactly as if the failing
part were absent: the resulting assets and intrinsics coincide with those
of the run that omits the failing part. -/
theorem c9_part_failure_is_isolated :
    ∀ (fuel : Nat) (xs ys : List Part) (p : Part) (st : AppState),
      DecodeFails fuel p →
      (processResponse fuel (xs ++ p :: ys) st).core.assets =
        (processResponse fuel (xs ++ ys) st).core.assets ∧
      (processResponse fuel (xs ++ p :: ys) st).core.intrinsics =
        (processResponse fuel (xs ++ ys) st).core.intrinsics ∧
      (∀ st2 : AppState, processPart fuel st2 p =
        { core := st2.core, diags := st2.diags ++ [Diag.partError] }) := by
  intro fuel xs ys p st hp
  have hcatch : ∀ st2 : AppState, processPart fuel st2 p =
      { core := st2.core, diags := st2.diags ++ [Diag.partError] } := by
    intro st2
    simp [processPart, partEffect_fails fuel st2.core p hp]
  have hcore : (processResponse fuel (xs ++ p :: ys) st).core =
      (processResponse fuel (xs ++ ys) st).core := by
    rw [processResponse_core, processResponse_core, List.foldl_append, List.foldl_append,
      List.foldl_cons]
    rcases hmid : List.foldl (processPart fuel)
      { st with core := { st.core with created := false } } xs with ⟨mc, md⟩
    rw [hcatch ⟨mc, md⟩]
    exact foldl_processPart_core fuel ys mc (md ++ [Diag.partError]) md
  exact ⟨congrArg CoreState.assets hcore, congrArg CoreState.intrinsics hcore, hcatch⟩

/-- Witness for C9: a one-part response whose Structure3D payload
underflows, against the empty initial state. -/
theorem c9_part_failure_is_isolated_witness :
    (processResponse 2 ([] ++ Part.pS3 [8] :: []) appInit0).core.assets =
      (processResponse 2 ([] ++ []) appInit0).core.assets ∧
    (processResponse 2 ([] ++ Part.pS3 [8] :: []) appInit0).core.intrinsics =
      (processResponse 2 ([] ++ []) appInit0).core.intrinsics ∧
    (∀ st2 : AppState, processPart 2 st2 (Part.pS3 [8]) =
      { core := st2.core, diags := st2.diags ++ [Diag.partError] }) :=
  c9_part_failure_is_isolated 2 [] [] (Part.pS3 [8]) appInit0
    ⟨Err.bufferUnderflow, by decide⟩

/-- C5: processing a one-part response carrying a Structure3D payload.
Kind 1 with non-empty payload appends exactly one point-cloud asset with
a freshly generated identity and selects it; kind 1 with empty payload,
kind 2 (splat), and any unrecognized kind produce no asset and leave the
state unchanged apart from diagnostics. -/
theorem c5_kind_mapping :
    (∀ (fuel : Nat) (bytes : List Nat) (st : AppState) (r : Structure3D) (c : Int),
      decodeStructure3D fuel bytes = some (.ok (r, c)) → r.fileType = 1 → r.data ≠ [] →
      (∀ a ∈ st.core.assets, a.id ≠ st.core.nextId) →
      ∃ A : Asset,
        (processResponse fuel [.pS3 bytes] st).core.assets = st.core.assets ++ [A] ∧
        A.fileType = .ply ∧ A.id = st.core.nextId ∧ A.data = r.data ∧ A.origin = .model ∧
        (∀ a ∈ st.core.assets, a.id ≠ A.id) ∧
        (processResponse fuel [.pS3 bytes] st).core.activeAssetId = some A.id ∧
        (processResponse fuel [.pS3 bytes] st).diags = st.diags) ∧
    (∀ (fuel : Nat) (bytes : List Nat) (st : AppState) (r : Structure3D) (c : Int),
      decodeStructure3D fuel bytes = some (.ok (r, c)) → r.fileType = 1 → r.data = [] →
      (processResponse fuel [.pS3 bytes] st).core.assets = st.core.assets ∧
      (processResponse fuel [.pS3 bytes] st).core.activeAssetId = st.core.activeAssetId ∧
      (processResponse fuel [.pS3 bytes] st).core.intrinsics = st.core.intrinsics ∧
      (processResponse fuel [.pS3 bytes] st).diags = st.diags ++ [Diag.noAssetWarn]) ∧
    (∀ (fuel : Nat) (bytes : List Nat) (st : AppState) (r : Structure3D) (c : Int),
      decodeStructure3D fuel bytes = some (.ok (r, c)) → r.fileType = 2 →
      (processResponse fuel [.pS3 bytes] st).core.assets = st.core.assets ∧
      (processResponse fuel [.pS3 bytes] st).core.activeAssetId = st.core.activeAssetId ∧
      (processResponse fuel [.pS3 bytes] st).core.intrinsics = st.core.intrinsics ∧
      (processResponse fuel [.pS3 bytes] st).diags =
        st.diags ++ [Diag.splatUnsupported, Diag.noAssetWarn]) ∧
    (∀ (fuel : Nat) (bytes : List Nat) (st : AppState) (r : Structure3D) (c : Int),
      decodeStructure3D fuel bytes = some (.ok (r, c)) →
      r.fileType ≠ 1 → r.fileType ≠ 2 → r.fileType ≠ 3 →
      (processResponse fuel [.pS3 bytes] st).core.assets = st.core.assets ∧
      (processResponse fuel [.pS3 bytes] st).core.activeAssetId = st.core.activeAssetId ∧
      (processResponse fuel [.pS3 bytes] st).core.intrinsics = st.core.intrinsics ∧
      (processResponse fuel [.pS3 bytes] st).diags =
        st.diags ++ [Diag.unknownFileType r.fileType, Diag.noAssetWarn]) := by
  refine ⟨?_, ?_, ?_, ?_⟩
  · intro fuel bytes st r c hdec hft hne hfresh
    have hpos : 0 < r.data.length := List.length_pos.mpr hne
    have hpe : ∀ cst : CoreState, partEffect fuel cst (.pS3 bytes) =
        (createAsset cst r.data .ply (if r.label = [] then generatedLabel else r.label),
          []) := by
      intro cst
      simp [partEffect, hdec, hft, hpos]
    have hrun : processResponse fuel [.pS3 bytes] st =
        { core := createAsset { st.core with created := false } r.data .ply
            (if r.label = [] then generatedLabel else r.label), diags := st.diags } := by
      simp only [processResponse, List.foldl_cons, List.foldl_nil, processPart, hpe]
      simp [createAsset]
    refine ⟨{ id := st.core.nextId
              data := r.data
              fileType := .ply
              label := if r.label = [] then generatedLabel else r.label
              origin := .model },
      ?_, rfl, rfl, rfl, rfl, ?_, ?_, ?_⟩
    · rw [hrun]
      simp [createAsset]
    · exact hfresh
    · rw [hrun]
      simp [createAsset]
    · rw [hrun]
  · intro fuel bytes st r c hdec hft hempty
    have hpe : ∀ cst : CoreState, partEffect fuel cst (.pS3 bytes) = (cst, []) := by
      intro cst
      simp [partEffect, hdec, hft, hempty]
    have hrun : processResponse fuel [.pS3 bytes] st =
        { core := { st.core with created := false }, diags := st.diags ++ [Diag.noAssetWarn] } := by
      simp only [processResponse, List.foldl_cons, List.foldl_nil, processPart, hpe]
      simp [Part.isTextOnly]
    rw [hrun]
    exact ⟨rfl, rfl, rfl, rfl⟩
  · intro fuel bytes st r c hdec hft
    have hpe : ∀ cst : CoreState, partEffect fuel cst (.pS3 bytes) =
        (cst, [Diag.splatUnsupported]) := by
      intro cst
      simp [partEffect, hdec, hft]
    have hrun : processResponse fuel [.pS3 bytes] st =
        { core := { st.core with created := false },
          diags := st.diags ++ [Diag.splatUnsupported, Diag.noAssetWarn] } := by
      simp only [processResponse, List.foldl_cons, List.foldl_nil, processPart, hpe]
      simp [Part.isTextOnly]
    rw [hrun]
    exact ⟨rfl, rfl, rfl, rfl⟩
  · intro fuel bytes st r c hdec h1 h2 h3
    have hpe : ∀ cst : CoreState, partEffect fuel cst (.pS3 bytes) =
        (cst, [Diag.unknownFileType r.fileType]) := by
      intro cst
      simp [partEffect, hdec, h1, h2, h3]
    have hrun : processResponse fuel [.pS3 bytes] st =
        { core := { st.core with created := false },
          diags := st.diags ++ [Diag.unknownFileType r.fileType, Diag.noAssetWarn] } := by
      simp only [processResponse, List.foldl_cons, List.foldl_nil, processPart, hpe]
      simp [Part.isTextOnly]
    rw [hrun]
    exact ⟨rfl, rfl, rfl, rfl⟩

/-- Witness for C5 on four concrete one-part responses: kind 1 with a
one-byte payload, kind 1 with no payload, kind 2, and kind 99. -/
theorem c5_kind_mapping_witness :
    (∃ A : Asset,
      (processResponse 6 [.pS3 [8, 1, 18, 1, 170]] appInit0).core.assets =
        appInit0.core.assets ++ [A] ∧
      A.fileType = .ply ∧ A.id = appInit0.core.nextId ∧ A.data = [170] ∧
      A.origin = .model ∧
      (∀ a ∈ appInit0.core.assets, a.id ≠ A.id) ∧
      (processResponse 6 [.pS3 [8, 1, 18, 1, 170]] appInit0).core.activeAssetId = some A.id ∧
      (processResponse 6 [.pS3 [8, 1, 18, 1, 170]] appInit0).diags = appInit0.diags) ∧
    (processResponse 3 [.pS3 [8, 1]] appInit0).core.assets = appInit0.core.assets ∧
    (processResponse 3 [.pS3 [8, 2]] appInit0).core.assets = appInit0.core.assets ∧
    (processResponse 3 [.pS3 [8, 2]] appInit0).diags =
      appInit0.diags ++ [Diag.splatUnsupported, Diag.noAssetWarn] ∧
    (processResponse 3 [.pS3 [8, 99]] appInit0).diags =
      appInit0.diags ++ [Diag.unknownFileType 99, Diag.noAssetWarn] := by
  refine ⟨?_, ?_, ?_, ?_, ?_⟩
  · exact c5_kind_mapping.1 6 [8, 1, 18, 1, 170] appInit0
      { fileType := 1, data := [170], label := [] } 5 (by decide) rfl (by decide)
      (by intro a ha; simp [appInit0, coreInit0] at ha)
  · exact (c5_kind_mapping.2.1 3 [8, 1] appInit0
      { fileType := 1, data := [], label := [] } 2 (by decide) rfl rfl).1
  · exact (c5_kind_mapping.2.2.1 3 [8, 2] appInit0
      { fileType := 2, data := [], label := [] } 2 (by decide) rfl).1
  · exact (c5_kind_mapping.2.2.1 3 [8, 2] appInit0
      { fileType := 2, data := [], label := [] } 2 (by decide) rfl).2.2.2
  · exact (c5_kind_mapping.2.2.2 3 [8, 99] appInit0
      { fileType := 99, data := [], label := [] } 2 (by decide) (by decide) (by decide)
      (by decide)).2.2.2

/-- C8: whenever the active selection changes, the selection effect first
removes any bounding indicator and detaches the manipulation handle, and
only afterwards attaches to the new target (at most one attach operation
occurs, and none before the detach); at every intermediate point the
handle is attached to at most the old target, nothing, or the new target. -/
theorem c8_active_handle_exclusivity :
    ∀ (boxEmpty : Nat → Bool) (st : SelState) (active : Option Nat),
      ∃ pre post,
        selectionOps boxEmpty st active = pre ++ GizmoOp.detach :: post ∧
        (∀ b : Nat, GizmoOp.attach b ∉ pre) ∧
        (st.indicator.isSome = true → GizmoOp.removeIndicator ∈ pre) ∧
        post.countP isAttachOp ≤ 1 ∧
        (applyOps st (selectionOps boxEmpty st active)).attached =
          (match active with
           | some b => if b ∈ st.models then some b else none
           | none => none) ∧
        (∀ n : Nat,
          (((selectionOps boxEmpty st active).take n).foldl applyOp st).attached =
              st.attached ∨
          (((selectionOps boxEmpty st active).take n).foldl applyOp st).attached = none ∨
          ∃ b, active = some b ∧ b ∈ st.models ∧
            (((selectionOps boxEmpty st active).take n).foldl applyOp st).attached =
              some b) := by
  intro boxEmpty st active
  refine ⟨(if st.indicator.isSome then [GizmoOp.removeIndicator] else []),
    (match active with
     | some id =>
       if id ∈ st.models then
         [GizmoOp.attach id] ++ (if boxEmpty id then [] else [GizmoOp.addIndicator id]) ++
           [GizmoOp.publishTransform id]
       else []
     | none => []),
    by simp only [selectionOps, List.append_assoc, List.singleton_append],
    ?_, ?_, ?_, ?_, ?_⟩
  · intro b
    by_cases hI : st.indicator.isSome <;> simp [hI]
  · intro h
    simp [h]
  · rcases active with _ | id
    · simp
    · by_cases hm : id ∈ st.models
      · cases hE : boxEmpty id <;> simp [hm, hE, isAttachOp]
      · simp [hm]
  · rcases active with _ | id
    · by_cases hI : st.indicator.isSome <;>
        simp [selectionOps, applyOps, applyOp, hI]
    · by_cases hm : id ∈ st.models
      · by_cases hI : st.indicator.isSome <;> cases hE : boxEmpty id <;>
          simp [selectionOps, applyOps, applyOp, hI, hm, hE]
      · by_cases hI : st.indicator.isSome <;>
          simp [selectionOps, applyOps, applyOp, hI, hm]
  · intro n
    rcases active with _ | id
    · by_cases hI : st.indicator.isSome <;>
        · simp only [selectionOps, hI]
          rcases n with _ | _ | _ | n <;> simp [applyOp]
    · by_cases hm : id ∈ st.models
      · by_cases hI : st.indicator.isSome <;> cases hE : boxEmpty id <;>
          · simp only [selectionOps, hI, hm, hE, if_pos, if_neg]
            rcases n with _ | _ | _ | _ | _ | _ | n <;> simp [applyOp, hm]
      · by_cases hI : st.indicator.isSome <;>
          · simp only [selectionOps, hI, hm]
            rcases n with _ | _ | _ | n <;> simp [applyOp, hm]

/-- Witness for C8: switching the selection from asset 3 to asset 5 with
both tracked and an indicator present. -/
theorem c8_active_handle_exclusivity_witness :
    ∃ pre post,
      selectionOps (fun _ => false) selTest (some 5) = pre ++ GizmoOp.detach :: post ∧
      (∀ b : Nat, GizmoOp.attach b ∉ pre) ∧
      (selTest.indicator.isSome = true → GizmoOp.removeIndicator ∈ pre) ∧
      post.countP isAttachOp ≤ 1 ∧
      (applyOps selTest (selectionOps (fun _ => false) selTest (some 5))).attached =
        (match (some (5 : Nat) : Option Nat) with
         | some b => if b ∈ selTest.models then some b else none
         | none => none) ∧
      (∀ n : Nat,
        (((selectionOps (fun _ => false) selTest (some 5)).take n).foldl applyOp
            selTest).attached = selTest.attached ∨
        (((selectionOps (fun _ => false) selTest (some 5)).take n).foldl applyOp
            selTest).attached = none ∨
        ∃ b, (some (5 : Nat) : Option Nat) = some b ∧ b ∈ selTest.models ∧
          (((selectionOps (fun _ => false) selTest (some 5)).take n).foldl applyOp
              selTest).attached = some b) :=
  c8_active_handle_exclusivity (fun _ => false) selTest (some 5)

end SceneCraft
